import Mathlib

/-!
Verification of `validate_server_config.py` (agent-payment-mcp).

The script validates one parsed `server.json` document. We shallow-embed the
parsed JSON document as `JValue`, the Python dictionary as an association
list, and the runtime behaviour of the relevant Python operations (truthiness,
`in`, `.get`, subscripting, `len`, iteration) including the places where they
raise `TypeError` / `AttributeError` on wrong-typed values. Fallible code
returns `Except PyErr`. Diagnostic messages are modelled as the inductive
`Msg` carrying the data interpolated into the source's f-strings, with
`Msg.render` producing the exact message text.
-/

set_option maxHeartbeats 1000000

namespace ServerConfig

/-- A decoded JSON value, as produced by `json.load`. -/
inductive JValue where
  | null
  | bool (b : Bool)
  | num (n : Int)
  | str (s : String)
  | arr (elems : List JValue)
  | obj (entries : List (String × JValue))

/-- Python exceptions that the script can raise while validating/reporting. -/
inductive PyErr where
  | attributeError (msg : String)
  | typeError (msg : String)
deriving DecidableEq, Repr

/-- Python truthiness (`bool(v)`) of a decoded JSON value. -/
def truthy : JValue → Bool
  | .null => false
  | .bool b => b
  | .num n => !(n == 0)
  | .str s => !(s == "")
  | .arr xs => !xs.isEmpty
  | .obj es => !es.isEmpty

/-- Python `k in d` for a dict `d` (key membership). -/
def jMemKey (entries : List (String × JValue)) (k : String) : Bool :=
  entries.any (fun kv => kv.1 == k)

/-- Dictionary lookup (first binding of the key). -/
def jLookup (entries : List (String × JValue)) (k : String) : Option JValue :=
  match entries with
  | [] => none
  | (k2, v) :: rest => if k2 == k then some v else jLookup rest k

/-- Python `d.get(k, default)` on a dict. -/
def jGetD (entries : List (String × JValue)) (k : String) (d : JValue) : JValue :=
  (jLookup entries k).getD d

/-- Python `d.get(k)` on a dict; an absent key yields Python `None`. -/
def jGet (entries : List (String × JValue)) (k : String) : JValue :=
  jGetD entries k .null

/-- Python `len(v)`: defined for strings, lists and dicts, `TypeError` otherwise. -/
def pyLen : JValue → Option Nat
  | .str s => some s.length
  | .arr xs => some xs.length
  | .obj es => some es.length
  | _ => none

/-- Iterating a value (`for x in v`): a string yields its characters as
one-character strings, a list its elements, a dict its keys; other values
are not iterable. -/
def pyIterate : JValue → Option (List JValue)
  | .str s => some (s.toList.map (fun c => .str c.toString))
  | .arr xs => some xs
  | .obj es => some (es.map (fun kv => .str kv.1))
  | _ => none

/-- Python `==` between a decoded JSON value and a string literal: only an
equal string compares equal. -/
def jEqStr : JValue → String → Bool
  | .str s, t => s == t
  | _, _ => false

/-- Prefix test over characters, used for `str.startswith`. -/
def pyStartsWith (s p : String) : Bool :=
  p.toList.isPrefixOf s.toList

/-- Substring containment over character lists. -/
def subCharList (needle : List Char) (hay : List Char) : Bool :=
  match hay with
  | [] => needle.isEmpty
  | _ :: rest => needle.isPrefixOf hay || subCharList needle rest

/-- Python `needle in hay` for strings (substring containment). -/
def pyStrContains (hay needle : String) : Bool :=
  subCharList needle.toList hay.toList

/-- Python `k in v` for an arbitrary value: key membership for dicts, element
equality for lists, substring test for strings, `TypeError` otherwise. -/
def pyContains (k : String) (v : JValue) : Except PyErr Bool :=
  match v with
  | .obj es => .ok (jMemKey es k)
  | .arr xs => .ok (xs.any (fun x => jEqStr x k))
  | .str s => .ok (pyStrContains s k)
  | _ => .error (.typeError "argument is not iterable")

/-- Python `v[k]`: only dicts support string subscripting. -/
def pySubscript (v : JValue) (k : String) : Except PyErr JValue :=
  match v with
  | .obj es => .ok (jGetD es k .null)
  | _ => .error (.typeError "value is not subscriptable by a string")

/-- Python `v.get(k)`: only dicts have the `get` attribute. -/
def pyGet (v : JValue) (k : String) : Except PyErr JValue :=
  match v with
  | .obj es => .ok (jGet es k)
  | _ => .error (.attributeError "object has no attribute get")

/-- Python `v.get(k, d)`: only dicts have the `get` attribute. -/
def pyGetDflt (v : JValue) (k : String) (d : JValue) : Except PyErr JValue :=
  match v with
  | .obj es => .ok (jGetD es k d)
  | _ => .error (.attributeError "object has no attribute get")

/-- Python `v[:60]`: slicing is defined for strings and lists. -/
def pySlice60 : JValue → Except PyErr JValue
  | .str s => .ok (.str (String.mk (s.toList.take 60)))
  | .arr xs => .ok (.arr (xs.take 60))
  | _ => .error (.typeError "value is not subscriptable by a slice")

mutual

/-- Python `repr` of a decoded JSON value (simple strings, no escaping). -/
def pyRepr : JValue → String
  | .null => "None"
  | .bool b => if b then "True" else "False"
  | .num n => toString n
  | .str s => "\x27" ++ s ++ "\x27"
  | .arr xs => "[" ++ pyReprElems xs ++ "]"
  | .obj es => "\x7b" ++ pyReprEntries es ++ "\x7d"

def pyReprElems : List JValue → String
  | [] => ""
  | [x] => pyRepr x
  | x :: xs => pyRepr x ++ ", " ++ pyReprElems xs

def pyReprEntries : List (String × JValue) → String
  | [] => ""
  | [(k, v)] => "\x27" ++ k ++ "\x27: " ++ pyRepr v
  | (k, v) :: es => "\x27" ++ k ++ "\x27: " ++ pyRepr v ++ ", " ++ pyReprEntries es

end

/-- Python `str(v)`, as used by f-string interpolation. -/
def pyStr : JValue → String
  | .str s => s
  | v => pyRepr v

/-- One diagnostic message appended by `validate_server_json`, carrying the
data interpolated into the source's f-string. `Msg.render` gives the text. -/
inductive Msg where
  | missingRequired (field : String)
  | emptyField (field : String)
  | nameNamespace (name : String)
  | nameSlash (name : String)
  | noDeployment
  | pkgMissingType (idx : Nat)
  | unknownPkgType (idx : Nat) (t : String)
  | mcpbMissingUri (idx : Nat)
  | mcpbMissingSha256 (idx : Nat)
  | mcpbMissingPlatforms (idx : Nat)
  | platformMissing (idx : Nat) (pidx : Nat) (field : String)
  | remoteMissingEndpoint (idx : Nat)
  | remoteMissingTransport (idx : Nat)
  | unknownTransport (idx : Nat) (t : String)
  | recommendedMissing (field : String)
  | repoNotObject
  | repoMissingType
  | repoMissingUrl
deriving DecidableEq, Repr

/-- The exact message text produced by the source's f-strings. -/
def Msg.render : Msg → String
  | .missingRequired field => "Missing required field: " ++ field
  | .emptyField field => "Field \x27" ++ field ++ "\x27 cannot be empty"
  | .nameNamespace name => "Name should use io.github.* or com.* namespace: " ++ name
  | .nameSlash name => "Name should include a slash separator (namespace/name): " ++ name
  | .noDeployment => "Must have at least one package or remote deployment"
  | .pkgMissingType idx => "Package " ++ toString idx ++ ": Missing \x27type\x27 field"
  | .unknownPkgType idx t =>
      "Package " ++ toString idx ++ ": Unknown package type \x27" ++ t ++ "\x27"
  | .mcpbMissingUri idx => "Package " ++ toString idx ++ ": MCPB package missing \x27uri\x27 field"
  | .mcpbMissingSha256 idx =>
      "Package " ++ toString idx ++ ": MCPB package missing \x27sha256\x27 field"
  | .mcpbMissingPlatforms idx =>
      "Package " ++ toString idx ++ ": MCPB package missing \x27platforms\x27 array"
  | .platformMissing idx pidx field =>
      "Package " ++ toString idx ++ ", Platform " ++ toString pidx ++
        ": Missing \x27" ++ field ++ "\x27 field"
  | .remoteMissingEndpoint idx => "Remote " ++ toString idx ++ ": Missing \x27endpoint\x27 field"
  | .remoteMissingTransport idx => "Remote " ++ toString idx ++ ": Missing \x27transport\x27 field"
  | .unknownTransport idx t =>
      "Remote " ++ toString idx ++ ": Unknown transport \x27" ++ t ++ "\x27"
  | .recommendedMissing field => "Recommended field missing: " ++ field
  | .repoNotObject => "Repository must be an object"
  | .repoMissingType => "Repository missing \x27type\x27 field"
  | .repoMissingUrl => "Repository missing \x27url\x27 field"

/-- The list `required_fields = ['name', 'version', 'description']`. -/
def REQUIRED_FIELDS : List String := ["name", "version", "description"]

/-- The required-fields loop: absent key, then present-but-falsy value. -/
def checkRequired (config : List (String × JValue)) : List Msg :=
  REQUIRED_FIELDS.foldl
    (fun errs field =>
      if jMemKey config field = false then errs ++ [Msg.missingRequired field]
      else if truthy (jGetD config field .null) = false then errs ++ [Msg.emptyField field]
      else errs)
    []

/-- The name-format checks: only run when `name` is a key of the document;
`name.startswith` raises `AttributeError` if the value is not a string. -/
def checkNameFormat (config : List (String × JValue)) : Except PyErr (List Msg) :=
  if jMemKey config "name" = false then .ok []
  else
    match jGetD config "name" .null with
    | .str name =>
        .ok ((if !pyStartsWith name "io.github." && !pyStartsWith name "com." then
                [Msg.nameNamespace name] else []) ++
             (if !pyStrContains name "/" then [Msg.nameSlash name] else []))
    | _ => .error (.attributeError "value has no attribute startswith")

/-- Evaluation of `config.get(key) and len(config[key]) > 0`: short-circuits on a falsy
value; `len` raises `TypeError` on a truthy non-sized value. -/
def computeHas (config : List (String × JValue)) (key : String) : Except PyErr Bool :=
  let v := jGet config key
  if truthy v = false then .ok false
  else
    match pyLen v with
    | some n => .ok (decide (n > 0))
    | none => .error (.typeError "object has no len")

/-- Membership of the type in `['npm', 'pypi', 'mcpb', 'docker', 'nuget']`. -/
def pkgTypeKnown (v : JValue) : Bool :=
  ["npm", "pypi", "mcpb", "docker", "nuget"].any (fun s => jEqStr v s)

/-- Membership of the transport in `['streamable-http', 'sse']`. -/
def transportKnown (v : JValue) : Bool :=
  ["streamable-http", "sse"].any (fun s => jEqStr v s)

/-- One platform entry of an MCPB package: four membership checks, each of
which raises `TypeError` on a non-container platform value. -/
def validatePlatform (idx pidx : Nat) (platform : JValue) : Except PyErr (List Msg) :=
  match pyContains "os" platform with
  | .error ex => .error ex
  | .ok hasOs =>
    match pyContains "arch" platform with
    | .error ex => .error ex
    | .ok hasArch =>
      match pyContains "uri" platform with
      | .error ex => .error ex
      | .ok hasUri =>
        match pyContains "sha256" platform with
        | .error ex => .error ex
        | .ok hasSha =>
          .ok ((if hasOs = false then [Msg.platformMissing idx pidx "os"] else []) ++
               (if hasArch = false then [Msg.platformMissing idx pidx "arch"] else []) ++
               (if hasUri = false then [Msg.platformMissing idx pidx "uri"] else []) ++
               (if hasSha = false then [Msg.platformMissing idx pidx "sha256"] else []))

/-- The platform loop of an MCPB package. -/
def platformsLoop (idx : Nat) (pidx : Nat) (plats : List JValue) : Except PyErr (List Msg) :=
  match plats with
  | [] => .ok []
  | p :: rest =>
    match validatePlatform idx pidx p with
    | .error ex => .error ex
    | .ok e1 =>
      match platformsLoop idx (pidx + 1) rest with
      | .error ex => .error ex
      | .ok e2 => .ok (e1 ++ e2)

/-- One iteration of the package loop. `package.get('type')` raises
`AttributeError` unless the entry is a dict. -/
def validatePackage (idx : Nat) (package : JValue) : Except PyErr (List Msg × List Msg) :=
  match package with
  | .obj es =>
    let pkgType := jGet es "type"
    let typeErrs := if truthy pkgType = false then [Msg.pkgMissingType idx] else []
    let typeWarns :=
      if truthy pkgType = false then []
      else if pkgTypeKnown pkgType = false then [Msg.unknownPkgType idx (pyStr pkgType)]
      else []
    if jEqStr pkgType "mcpb" = false then .ok (typeErrs, typeWarns)
    else
      let e1 := if jMemKey es "uri" = false then [Msg.mcpbMissingUri idx] else []
      let e2 := if jMemKey es "sha256" = false then [Msg.mcpbMissingSha256 idx] else []
      if jMemKey es "platforms" = false || truthy (jGetD es "platforms" .null) = false then
        .ok (typeErrs ++ e1 ++ e2 ++ [Msg.mcpbMissingPlatforms idx], typeWarns)
      else
        match pyIterate (jGetD es "platforms" .null) with
        | none => .error (.typeError "platforms value is not iterable")
        | some plats =>
          match platformsLoop idx 0 plats with
          | .error ex => .error ex
          | .ok pe => .ok (typeErrs ++ e1 ++ e2 ++ pe, typeWarns)
  | _ => .error (.attributeError "object has no attribute get")

/-- The package loop (`enumerate(config['packages'])`). -/
def packagesLoop (idx : Nat) (pkgs : List JValue) : Except PyErr (List Msg × List Msg) :=
  match pkgs with
  | [] => .ok ([], [])
  | p :: rest =>
    match validatePackage idx p with
    | .error ex => .error ex
    | .ok (e1, w1) =>
      match packagesLoop (idx + 1) rest with
      | .error ex => .error ex
      | .ok (e2, w2) => .ok (e1 ++ e2, w1 ++ w2)

/-- Iterating `config['packages']` and running the package loop. -/
def validatePackagesTop (config : List (String × JValue)) : Except PyErr (List Msg × List Msg) :=
  match pyIterate (jGet config "packages") with
  | none => .error (.typeError "packages value is not iterable")
  | some pkgs => packagesLoop 0 pkgs

/-- One iteration of the remote loop: membership checks on the entry, then
subscripting it for the transport value. -/
def validateRemote (idx : Nat) (remote : JValue) : Except PyErr (List Msg × List Msg) :=
  match pyContains "endpoint" remote with
  | .error ex => .error ex
  | .ok hasEp =>
    let e1 := if hasEp = false then [Msg.remoteMissingEndpoint idx] else []
    match pyContains "transport" remote with
    | .error ex => .error ex
    | .ok hasT =>
      if hasT = false then .ok (e1 ++ [Msg.remoteMissingTransport idx], [])
      else
        match pySubscript remote "transport" with
        | .error ex => .error ex
        | .ok tv =>
          if transportKnown tv = false then .ok (e1, [Msg.unknownTransport idx (pyStr tv)])
          else .ok (e1, [])

/-- The remote loop (`enumerate(config['remotes'])`). -/
def remotesLoop (idx : Nat) (rs : List JValue) : Except PyErr (List Msg × List Msg) :=
  match rs with
  | [] => .ok ([], [])
  | r :: rest =>
    match validateRemote idx r with
    | .error ex => .error ex
    | .ok (e1, w1) =>
      match remotesLoop (idx + 1) rest with
      | .error ex => .error ex
      | .ok (e2, w2) => .ok (e1 ++ e2, w1 ++ w2)

/-- Iterating `config['remotes']` and running the remote loop. -/
def validateRemotesTop (config : List (String × JValue)) : Except PyErr (List Msg × List Msg) :=
  match pyIterate (jGet config "remotes") with
  | none => .error (.typeError "remotes value is not iterable")
  | some rs => remotesLoop 0 rs

/-- The `recommended_fields = ['license', 'homepage', 'repository']` loop. -/
def checkRecommended (config : List (String × JValue)) : List Msg :=
  ["license", "homepage", "repository"].foldl
    (fun ws field =>
      if jMemKey config field = false then ws ++ [Msg.recommendedMissing field] else ws)
    []

/-- The repository-shape checks (`isinstance(repo, dict)`). -/
def checkRepository (config : List (String × JValue)) : List Msg × List Msg :=
  if jMemKey config "repository" = false then ([], [])
  else
    match jGetD config "repository" .null with
    | .obj es =>
        ([], (if jMemKey es "type" = false then [Msg.repoMissingType] else []) ++
             (if jMemKey es "url" = false then [Msg.repoMissingUrl] else []))
    | _ => ([Msg.repoNotObject], [])

/-- Rule `if not has_packages and not has_remotes:` — the deployment-presence
error. -/
def deploymentErrs (hasP hasR : Bool) : List Msg :=
  if !hasP && !hasR then [Msg.noDeployment] else []

/-- The function `validate_server_json(config)`: the whole validation routine, for a
document that is a mapping. Returns the `(errors, warnings)` pair, or the
Python exception that the run raises. -/
def validate_server_json (config : List (String × JValue)) :
    Except PyErr (List Msg × List Msg) :=
  let errs1 := checkRequired config
  match checkNameFormat config with
  | .error ex => .error ex
  | .ok warns2 =>
    match computeHas config "packages" with
    | .error ex => .error ex
    | .ok hasP =>
      match computeHas config "remotes" with
      | .error ex => .error ex
      | .ok hasR =>
        let errs3 := deploymentErrs hasP hasR
        match (if hasP then validatePackagesTop config else .ok ([], [])) with
        | .error ex => .error ex
        | .ok (errs4, warns4) =>
          match (if hasR then validateRemotesTop config else .ok ([], [])) with
          | .error ex => .error ex
          | .ok (errs5, warns5) =>
            let warns6 := checkRecommended config
            let ew7 := checkRepository config
            .ok (errs1 ++ errs3 ++ errs4 ++ errs5 ++ ew7.1,
                 warns2 ++ warns4 ++ warns5 ++ warns6 ++ ew7.2)

/-- One printed line of `main`'s report, carrying the interpolated data. -/
inductive Line where
  | banner
  | errorsHeader
  | errorItem (m : Msg)
  | blank
  | warningsHeader
  | warningItem (m : Msg)
  | looksGood
  | validWithWarnings
  | hasErrors
  | summaryHeader
  | summaryName (s : String)
  | summaryVersion (s : String)
  | summaryDescription (s : String)
  | summaryLicense (s : String)
  | summaryHomepage (s : String)
  | summaryPackages (n : Nat)
  | summaryRemotes (n : Nat)
  | platformHeader (n : Nat)
  | platformItem (s : String)
deriving DecidableEq, Repr

/-- The per-platform lines of the platform-support block. -/
def platItemsLoop (plats : List JValue) : Except PyErr (List Line) :=
  match plats with
  | [] => .ok []
  | p :: rest =>
    match pyGetDflt p "os" (.str "unknown") with
    | .error ex => .error ex
    | .ok osv =>
      match pyGetDflt p "arch" (.str "unknown") with
      | .error ex => .error ex
      | .ok archv =>
        match platItemsLoop rest with
        | .error ex => .error ex
        | .ok tail => .ok (Line.platformItem (pyStr osv ++ "/" ++ pyStr archv) :: tail)

/-- The platform-support block for one package:
`if pkg.get('type') == 'mcpb' and pkg.get('platforms'):`. -/
def pkgPlatformLines (pkg : JValue) : Except PyErr (List Line) :=
  match pyGet pkg "type" with
  | .error ex => .error ex
  | .ok t =>
    if jEqStr t "mcpb" = false then .ok []
    else
      match pyGet pkg "platforms" with
      | .error ex => .error ex
      | .ok plats =>
        if truthy plats = false then .ok []
        else
          match pySubscript pkg "platforms" with
          | .error ex => .error ex
          | .ok pv =>
            match pyLen pv with
            | none => .error (.typeError "object has no len")
            | some n =>
              match pyIterate pv with
              | none => .error (.typeError "platforms value is not iterable")
              | some ps =>
                match platItemsLoop ps with
                | .error ex => .error ex
                | .ok items => .ok (Line.platformHeader n :: items)

/-- The loop over packages in the platform-support block. -/
def pkgsBlockLoop (pkgs : List JValue) : Except PyErr (List Line) :=
  match pkgs with
  | [] => .ok []
  | p :: rest =>
    match pkgPlatformLines p with
    | .error ex => .error ex
    | .ok l1 =>
      match pkgsBlockLoop rest with
      | .error ex => .error ex
      | .ok l2 => .ok (l1 ++ l2)

/-- Guard `if config.get('packages'):` followed by the package loop of the
platform-support block. -/
def platformBlock (config : List (String × JValue)) : Except PyErr (List Line) :=
  if truthy (jGet config "packages") = false then .ok []
  else
    match pyIterate (jGetD config "packages" (.arr [])) with
    | none => .error (.typeError "packages value is not iterable")
    | some pkgs => pkgsBlockLoop pkgs

/-- The configuration-summary block and the platform-support block, printed
after the status line when the run was not already terminated by errors. -/
def mainSummary (config : List (String × JValue)) (out : List Line) :
    Except PyErr (List Line × Nat) :=
  match pySlice60 (jGetD config "description" (.str "")) with
  | .error ex => .error ex
  | .ok desc =>
    match pyLen (jGetD config "packages" (.arr [])) with
    | none => .error (.typeError "object has no len")
    | some npkgs =>
      match pyLen (jGetD config "remotes" (.arr [])) with
      | none => .error (.typeError "object has no len")
      | some nrem =>
        match platformBlock config with
        | .error ex => .error ex
        | .ok plines =>
          .ok (out ++
               [Line.summaryHeader,
                Line.summaryName (pyStr (jGet config "name")),
                Line.summaryVersion (pyStr (jGet config "version")),
                Line.summaryDescription (pyStr desc),
                Line.summaryLicense (pyStr (jGetD config "license" (.str "Not specified"))),
                Line.summaryHomepage (pyStr (jGetD config "homepage" (.str "Not specified"))),
                Line.summaryPackages npkgs,
                Line.summaryRemotes nrem] ++ plines, 0)

/-- The function `main()` after a successful `json.load`: the printed report and the exit
status, or the Python exception of a crashed run. `sys.exit(1)` inside the
errors branch terminates with status 1 before the summary. -/
def main (config : List (String × JValue)) : Except PyErr (List Line × Nat) :=
  match validate_server_json config with
  | .error ex => .error ex
  | .ok (errors, warnings) =>
    let out := [Line.banner] ++
      (if errors.isEmpty then []
       else Line.errorsHeader :: errors.map Line.errorItem ++ [Line.blank]) ++
      (if warnings.isEmpty then []
       else Line.warningsHeader :: warnings.map Line.warningItem ++ [Line.blank])
    if errors.isEmpty && warnings.isEmpty then
      mainSummary config (out ++ [Line.looksGood])
    else if errors.isEmpty then
      mainSummary config (out ++ [Line.validWithWarnings])
    else
      .ok (out ++ [Line.hasErrors], 1)

/-- The process exit status for a successfully loaded document: `main`'s
return value is passed to `sys.exit`, and an uncaught exception makes the
interpreter exit with status 1. -/
def processExitCode (config : List (String × JValue)) : Nat :=
  match main config with
  | .ok (_, code) => code
  | .error _ => 1

/-- Whether the report of `main` contains the configuration-summary header. -/
def printsSummary (config : List (String × JValue)) : Bool :=
  match main config with
  | .ok (lines, _) => decide (Line.summaryHeader ∈ lines)
  | .error _ => false

/-! ### Classifiers on diagnostics, used to state the claims -/

/-- The rule family (spec rule number 1–7) a diagnostic originates from. -/
def Msg.tag : Msg → Nat
  | .missingRequired _ => 1
  | .emptyField _ => 1
  | .nameNamespace _ => 2
  | .nameSlash _ => 2
  | .noDeployment => 3
  | .pkgMissingType _ => 4
  | .unknownPkgType _ _ => 4
  | .mcpbMissingUri _ => 4
  | .mcpbMissingSha256 _ => 4
  | .mcpbMissingPlatforms _ => 4
  | .platformMissing _ _ _ => 4
  | .remoteMissingEndpoint _ => 5
  | .remoteMissingTransport _ => 5
  | .unknownTransport _ _ => 5
  | .recommendedMissing _ => 6
  | .repoNotObject => 7
  | .repoMissingType => 7
  | .repoMissingUrl => 7

/-- The package index a diagnostic refers to, if any. -/
def Msg.pkgIdx : Msg → Option Nat
  | .pkgMissingType i => some i
  | .unknownPkgType i _ => some i
  | .mcpbMissingUri i => some i
  | .mcpbMissingSha256 i => some i
  | .mcpbMissingPlatforms i => some i
  | .platformMissing i _ _ => some i
  | _ => none

/-- The remote index a diagnostic refers to, if any. -/
def Msg.remoteIdx : Msg → Option Nat
  | .remoteMissingEndpoint i => some i
  | .remoteMissingTransport i => some i
  | .unknownTransport i _ => some i
  | _ => none

/-! ### Well-typedness: the fragment on which the validator cannot raise -/

/-- For an MCPB package: a truthy `platforms` value is a list of dicts. -/
def platformsWellTyped (es : List (String × JValue)) : Bool :=
  match jLookup es "platforms" with
  | none => true
  | some v =>
    if truthy v = false then true
    else
      match v with
      | .arr ps => ps.all (fun p => match p with | .obj _ => true | _ => false)
      | _ => false

/-- A package entry is a dict; an MCPB package also has well-typed platforms. -/
def packageWellTyped (p : JValue) : Bool :=
  match p with
  | .obj es => if jEqStr (jGet es "type") "mcpb" then platformsWellTyped es else true
  | _ => false

/-- A remote entry is a dict. -/
def remoteWellTyped (r : JValue) : Bool :=
  match r with
  | .obj _ => true
  | _ => false

/-- A truthy value of the named sequence field is a list whose elements all
satisfy `elemOk`. -/
def seqFieldWellTyped (config : List (String × JValue)) (key : String)
    (elemOk : JValue → Bool) : Bool :=
  match jLookup config key with
  | none => true
  | some v =>
    if truthy v = false then true
    else
      match v with
      | .arr xs => xs.all elemOk
      | _ => false

/-- The documents on which `validate_server_json` is exception-free: `name`
(when present) is a string, truthy `packages`/`remotes` values are lists of
dicts, and truthy `platforms` values of MCPB packages are lists of dicts. -/
def configWellTyped (config : List (String × JValue)) : Bool :=
  (match jLookup config "name" with
   | none => true
   | some (.str _) => true
   | some _ => false) &&
  seqFieldWellTyped config "packages" packageWellTyped &&
  seqFieldWellTyped config "remotes" remoteWellTyped

/-! ### Basic lemmas about the dictionary model -/

theorem jLookup_some_mem {es : List (String × JValue)} {k : String} {v : JValue}
    (h : jLookup es k = some v) : jMemKey es k = true := by
  induction es with
  | nil => simp [jLookup] at h
  | cons kv rest ih =>
    obtain ⟨k2, v2⟩ := kv
    simp only [jLookup] at h
    split at h
    next hk => simp [jMemKey, List.any_cons, hk]
    next hk =>
      have := ih h
      simp only [jMemKey, List.any_cons] at this ⊢
      simp [this]

theorem jMemKey_some {es : List (String × JValue)} {k : String}
    (h : jMemKey es k = true) : ∃ v, jLookup es k = some v := by
  induction es with
  | nil => simp [jMemKey] at h
  | cons kv rest ih =>
    obtain ⟨k2, v2⟩ := kv
    by_cases hk : k2 == k
    · exact ⟨v2, by simp [jLookup, hk]⟩
    · simp only [jMemKey, List.any_cons, hk, Bool.false_or] at h
      obtain ⟨v, hv⟩ := ih h
      exact ⟨v, by simp [jLookup, hk, hv]⟩

theorem jGetD_of_lookup {es : List (String × JValue)} {k : String} {v d : JValue}
    (h : jLookup es k = some v) : jGetD es k d = v := by
  simp [jGetD, h]

/-! ### Classifier facts on diagnostics -/

theorem Msg.tag1_pkgIdx {m : Msg} (h : m.tag = 1) : m.pkgIdx = none := by
  cases m <;> simp_all [Msg.tag, Msg.pkgIdx]

theorem Msg.pkgIdx_some_tag {m : Msg} {i : Nat} (h : m.pkgIdx = some i) : m.tag = 4 := by
  cases m <;> simp_all [Msg.tag, Msg.pkgIdx]

theorem Msg.remoteIdx_some_tag {m : Msg} {i : Nat} (h : m.remoteIdx = some i) : m.tag = 5 := by
  cases m <;> simp_all [Msg.tag, Msg.remoteIdx]

theorem Msg.tag_ne4_pkgIdx {m : Msg} (h : m.tag ≠ 4) : m.pkgIdx = none := by
  cases m <;> simp_all [Msg.tag, Msg.pkgIdx]

theorem Msg.tag_ne5_remoteIdx {m : Msg} (h : m.tag ≠ 5) : m.remoteIdx = none := by
  cases m <;> simp_all [Msg.tag, Msg.remoteIdx]

/-- A list all of whose elements carry `pkgIdx = none` filters to `[]` under
a package-index predicate. -/
theorem filter_pkgIdx_none {l : List Msg} {i : Nat}
    (h : ∀ m ∈ l, Msg.pkgIdx m = none) :
    l.filter (fun m => m.pkgIdx == some i) = [] := by
  rw [List.filter_eq_nil_iff]
  intro m hm
  simp [h m hm]

theorem filter_remoteIdx_none {l : List Msg} {i : Nat}
    (h : ∀ m ∈ l, Msg.remoteIdx m = none) :
    l.filter (fun m => m.remoteIdx == some i) = [] := by
  rw [List.filter_eq_nil_iff]
  intro m hm
  simp [h m hm]

/-! ### Phase lemmas: required fields -/

theorem mem_checkRequired (config : List (String × JValue)) (f : String)
    (hf : f ∈ REQUIRED_FIELDS) :
    (Msg.missingRequired f ∈ checkRequired config ↔ jMemKey config f = false) ∧
    (Msg.emptyField f ∈ checkRequired config ↔
      (jMemKey config f = true ∧ truthy (jGetD config f .null) = false)) := by
  simp only [REQUIRED_FIELDS, List.mem_cons, List.not_mem_nil, or_false] at hf
  unfold checkRequired REQUIRED_FIELDS
  simp only [List.foldl_cons, List.foldl_nil]
  rcases hf with rfl | rfl | rfl <;>
    split_ifs <;>
    simp_all [Bool.not_eq_false]

theorem checkRequired_tag (config : List (String × JValue)) :
    ∀ m ∈ checkRequired config, m.tag = 1 := by
  unfold checkRequired REQUIRED_FIELDS
  simp only [List.foldl_cons, List.foldl_nil]
  split_ifs <;> (intro m hm; fin_cases hm <;> rfl)

/-! ### Phase lemmas: name format -/

theorem checkNameFormat_tag {config : List (String × JValue)} {ws : List Msg}
    (h : checkNameFormat config = .ok ws) : ∀ m ∈ ws, m.tag = 2 := by
  unfold checkNameFormat at h
  split at h
  · obtain rfl : ([] : List Msg) = ws := by injection h
    simp
  · split at h
    next name heq =>
      obtain rfl :
          ((if !pyStartsWith name "io.github." && !pyStartsWith name "com." then
              [Msg.nameNamespace name] else []) ++
           (if !pyStrContains name "/" then [Msg.nameSlash name] else [])) = ws := by
        injection h
      intro m hm
      rcases List.mem_append.mp hm with hm' | hm' <;>
        revert hm' <;> split <;> intro hm' <;> simp_all [Msg.tag]
    next => exact absurd h (by simp)

/-! ### Phase lemmas: recommended fields and repository -/

theorem checkRecommended_tag (config : List (String × JValue)) :
    ∀ m ∈ checkRecommended config, m.tag = 6 := by
  unfold checkRecommended
  simp only [List.foldl_cons, List.foldl_nil]
  split_ifs <;> (intro m hm; fin_cases hm <;> rfl)

theorem checkRepository_fst_tag (config : List (String × JValue)) :
    ∀ m ∈ (checkRepository config).1, m.tag = 7 := by
  unfold checkRepository
  split
  next => simp
  next =>
    split
    next => simp
    next => intro m hm; fin_cases hm <;> rfl

theorem checkRepository_snd_tag (config : List (String × JValue)) :
    ∀ m ∈ (checkRepository config).2, m.tag = 7 := by
  unfold checkRepository
  split
  next => simp
  next =>
    split
    next =>
      split_ifs <;>
        (intro m hm; rcases List.mem_append.mp hm with h | h <;> fin_cases h <;> rfl)
    next => simp

/-! ### Membership helpers for conditional diagnostic lists -/

theorem forall_mem_nil {α : Type} {P : α → Prop} : ∀ m ∈ ([] : List α), P m := by
  simp

theorem forall_mem_singleton2 {α : Type} {P : α → Prop} {a : α} (h : P a) :
    ∀ m ∈ [a], P m := by
  simp [h]

theorem forall_mem_ite {α : Type} {P : α → Prop} {c : Prop} [Decidable c] {l1 l2 : List α}
    (h1 : ∀ m ∈ l1, P m) (h2 : ∀ m ∈ l2, P m) : ∀ m ∈ (if c then l1 else l2), P m := by
  split
  · exact h1
  · exact h2

theorem forall_mem_app {α : Type} {P : α → Prop} {l1 l2 : List α}
    (h1 : ∀ m ∈ l1, P m) (h2 : ∀ m ∈ l2, P m) : ∀ m ∈ l1 ++ l2, P m :=
  List.forall_mem_append.mpr ⟨h1, h2⟩

/-! ### Phase lemmas: the package loop -/

theorem validatePlatform_pkgIdx {i pidx : Nat} {p : JValue} {e : List Msg}
    (h : validatePlatform i pidx p = .ok e) : ∀ m ∈ e, m.pkgIdx = some i := by
  unfold validatePlatform at h
  split at h
  next => exact Except.noConfusion h
  next =>
    split at h
    next => exact Except.noConfusion h
    next =>
      split at h
      next => exact Except.noConfusion h
      next =>
        split at h
        next => exact Except.noConfusion h
        next =>
          injection h with h
          subst h
          exact forall_mem_app (forall_mem_app (forall_mem_app
            (forall_mem_ite (forall_mem_singleton2 rfl) forall_mem_nil)
            (forall_mem_ite (forall_mem_singleton2 rfl) forall_mem_nil))
            (forall_mem_ite (forall_mem_singleton2 rfl) forall_mem_nil))
            (forall_mem_ite (forall_mem_singleton2 rfl) forall_mem_nil)

theorem platformsLoop_pkgIdx {i : Nat} {plats : List JValue} {pidx : Nat} {e : List Msg} :
    platformsLoop i pidx plats = .ok e → ∀ m ∈ e, m.pkgIdx = some i := by
  induction plats generalizing pidx e with
  | nil =>
    intro h
    injection h with h
    subst h
    simp
  | cons p rest ih =>
    intro h
    unfold platformsLoop at h
    split at h
    next => exact Except.noConfusion h
    next e1 he1 =>
      split at h
      next => exact Except.noConfusion h
      next e2 he2 =>
        injection h with h
        subst h
        intro m hm
        rcases List.mem_append.mp hm with hm | hm
        · exact validatePlatform_pkgIdx he1 m hm
        · exact ih he2 m hm

theorem validatePackage_pkgIdx {i : Nat} {p : JValue} {ew : List Msg × List Msg} :
    validatePackage i p = .ok ew →
    (∀ m ∈ ew.1, m.pkgIdx = some i) ∧ (∀ m ∈ ew.2, m.pkgIdx = some i) := by
  cases p <;> intro h <;> simp only [validatePackage] at h
  case obj es =>
    split at h
    next =>
      injection h with h
      subst h
      refine ⟨forall_mem_ite (forall_mem_singleton2 rfl) forall_mem_nil, ?_⟩
      exact forall_mem_ite forall_mem_nil
        (forall_mem_ite (forall_mem_singleton2 rfl) forall_mem_nil)
    next =>
      split at h
      next =>
        injection h with h
        subst h
        refine ⟨?_, ?_⟩
        · exact forall_mem_app (forall_mem_app (forall_mem_app
            (forall_mem_ite (forall_mem_singleton2 rfl) forall_mem_nil)
            (forall_mem_ite (forall_mem_singleton2 rfl) forall_mem_nil))
            (forall_mem_ite (forall_mem_singleton2 rfl) forall_mem_nil))
            (forall_mem_singleton2 rfl)
        · exact forall_mem_ite forall_mem_nil
            (forall_mem_ite (forall_mem_singleton2 rfl) forall_mem_nil)
      next =>
        split at h
        next => exact Except.noConfusion h
        next =>
          split at h
          next => exact Except.noConfusion h
          next pe hpe =>
            injection h with h
            subst h
            refine ⟨?_, ?_⟩
            · exact forall_mem_app (forall_mem_app (forall_mem_app
                (forall_mem_ite (forall_mem_singleton2 rfl) forall_mem_nil)
                (forall_mem_ite (forall_mem_singleton2 rfl) forall_mem_nil))
                (forall_mem_ite (forall_mem_singleton2 rfl) forall_mem_nil))
                (platformsLoop_pkgIdx hpe)
            · exact forall_mem_ite forall_mem_nil
                (forall_mem_ite (forall_mem_singleton2 rfl) forall_mem_nil)
  all_goals exact Except.noConfusion h

theorem packagesLoop_range {pkgs : List JValue} {j : Nat} {ew : List Msg × List Msg} :
    packagesLoop j pkgs = .ok ew →
    (∀ m ∈ ew.1, ∃ k, m.pkgIdx = some k ∧ j ≤ k ∧ k < j + pkgs.length) ∧
    (∀ m ∈ ew.2, ∃ k, m.pkgIdx = some k ∧ j ≤ k ∧ k < j + pkgs.length) := by
  induction pkgs generalizing j ew with
  | nil =>
    intro h
    injection h with h
    subst h
    exact ⟨forall_mem_nil, forall_mem_nil⟩
  | cons p rest ih =>
    intro h
    unfold packagesLoop at h
    split at h
    next => exact Except.noConfusion h
    next e1 w1 h1 =>
      split at h
      next => exact Except.noConfusion h
      next e2 w2 h2 =>
        injection h with h
        subst h
        have hlen : (p :: rest).length = rest.length + 1 := by simp
        constructor
        · refine forall_mem_app (fun m hm => ?_) (fun m hm => ?_)
          · exact ⟨j, (validatePackage_pkgIdx h1).1 m hm, Nat.le_refl j, by omega⟩
          · obtain ⟨k, hk1, hk2, hk3⟩ := (ih h2).1 m hm
            exact ⟨k, hk1, by omega, by simp only [hlen]; omega⟩
        · refine forall_mem_app (fun m hm => ?_) (fun m hm => ?_)
          · exact ⟨j, (validatePackage_pkgIdx h1).2 m hm, Nat.le_refl j, by omega⟩
          · obtain ⟨k, hk1, hk2, hk3⟩ := (ih h2).2 m hm
            exact ⟨k, hk1, by omega, by simp only [hlen]; omega⟩

theorem packagesLoop_filter {pkgs : List JValue} {p : JValue} {j n : Nat}
    {ew ew1 : List Msg × List Msg} :
    packagesLoop j pkgs = .ok ew → pkgs.get? n = some p →
    validatePackage (j + n) p = .ok ew1 →
    ew.1.filter (fun m => m.pkgIdx == some (j + n)) = ew1.1 ∧
    ew.2.filter (fun m => m.pkgIdx == some (j + n)) = ew1.2 := by
  induction pkgs generalizing j n ew with
  | nil => intro _ hn _; simp at hn
  | cons q rest ih =>
    intro h hn hp
    unfold packagesLoop at h
    split at h
    next => exact Except.noConfusion h
    next e1 w1 h1 =>
      split at h
      next => exact Except.noConfusion h
      next e2 w2 h2 =>
        injection h with h
        subst h
        cases n with
        | zero =>
          obtain rfl : q = p := by simpa using hn
          simp only [Nat.add_zero] at hp ⊢
          rw [h1] at hp
          injection hp with hp
          subst hp
          constructor
          · rw [List.filter_append]
            have hself : e1.filter (fun m => m.pkgIdx == some j) = e1 := by
              rw [List.filter_eq_self]
              intro m hm
              rw [(validatePackage_pkgIdx h1).1 m hm]
              simp
            have hnil : e2.filter (fun m => m.pkgIdx == some j) = [] := by
              rw [List.filter_eq_nil_iff]
              intro m hm
              obtain ⟨k, hk1, hk2, hk3⟩ := (packagesLoop_range h2).1 m hm
              rw [hk1]
              simp only [beq_iff_eq, Option.some.injEq]
              omega
            rw [hself, hnil, List.append_nil]
          · rw [List.filter_append]
            have hself : w1.filter (fun m => m.pkgIdx == some j) = w1 := by
              rw [List.filter_eq_self]
              intro m hm
              rw [(validatePackage_pkgIdx h1).2 m hm]
              simp
            have hnil : w2.filter (fun m => m.pkgIdx == some j) = [] := by
              rw [List.filter_eq_nil_iff]
              intro m hm
              obtain ⟨k, hk1, hk2, hk3⟩ := (packagesLoop_range h2).2 m hm
              rw [hk1]
              simp only [beq_iff_eq, Option.some.injEq]
              omega
            rw [hself, hnil, List.append_nil]
        | succ n2 =>
          have hn2 : rest.get? n2 = some p := by simpa using hn
          have hadd : j + 1 + n2 = j + (n2 + 1) := by omega
          have hp2 : validatePackage (j + 1 + n2) p = .ok ew1 := by rw [hadd]; exact hp
          have := ih h2 hn2 hp2
          rw [hadd] at this
          constructor
          · rw [List.filter_append]
            have hnil : e1.filter (fun m => m.pkgIdx == some (j + (n2 + 1))) = [] := by
              rw [List.filter_eq_nil_iff]
              intro m hm
              rw [(validatePackage_pkgIdx h1).1 m hm]
              simp only [beq_iff_eq, Option.some.injEq]
              omega
            rw [hnil, List.nil_append, this.1]
          · rw [List.filter_append]
            have hnil : w1.filter (fun m => m.pkgIdx == some (j + (n2 + 1))) = [] := by
              rw [List.filter_eq_nil_iff]
              intro m hm
              rw [(validatePackage_pkgIdx h1).2 m hm]
              simp only [beq_iff_eq, Option.some.injEq]
              omega
            rw [hnil, List.nil_append, this.2]

/-! ### Phase lemmas: the remote loop -/

theorem validateRemote_remoteIdx {i : Nat} {r : JValue} {ew : List Msg × List Msg} :
    validateRemote i r = .ok ew →
    (∀ m ∈ ew.1, m.remoteIdx = some i) ∧ (∀ m ∈ ew.2, m.remoteIdx = some i) := by
  intro h
  unfold validateRemote at h
  split at h
  next => exact Except.noConfusion h
  next =>
    split at h
    all_goals simp only [] at h
    all_goals (
      split at h
      next => exact Except.noConfusion h
      next =>
        split at h
        next =>
          injection h with h
          subst h
          refine ⟨forall_mem_app ?_ (forall_mem_singleton2 rfl), forall_mem_nil⟩
          first
            | exact forall_mem_singleton2 rfl
            | exact forall_mem_nil
        next =>
          split at h
          next => exact Except.noConfusion h
          next =>
            split at h
            next =>
              injection h with h
              subst h
              refine ⟨?_, forall_mem_singleton2 rfl⟩
              first
                | exact forall_mem_singleton2 rfl
                | exact forall_mem_nil
            next =>
              injection h with h
              subst h
              refine ⟨?_, forall_mem_nil⟩
              first
                | exact forall_mem_singleton2 rfl
                | exact forall_mem_nil)

theorem remotesLoop_range {rs : List JValue} {j : Nat} {ew : List Msg × List Msg} :
    remotesLoop j rs = .ok ew →
    (∀ m ∈ ew.1, ∃ k, m.remoteIdx = some k ∧ j ≤ k ∧ k < j + rs.length) ∧
    (∀ m ∈ ew.2, ∃ k, m.remoteIdx = some k ∧ j ≤ k ∧ k < j + rs.length) := by
  induction rs generalizing j ew with
  | nil =>
    intro h
    injection h with h
    subst h
    exact ⟨forall_mem_nil, forall_mem_nil⟩
  | cons r rest ih =>
    intro h
    unfold remotesLoop at h
    split at h
    next => exact Except.noConfusion h
    next e1 w1 h1 =>
      split at h
      next => exact Except.noConfusion h
      next e2 w2 h2 =>
        injection h with h
        subst h
        have hlen : (r :: rest).length = rest.length + 1 := by simp
        constructor
        · refine forall_mem_app (fun m hm => ?_) (fun m hm => ?_)
          · exact ⟨j, (validateRemote_remoteIdx h1).1 m hm, Nat.le_refl j, by omega⟩
          · obtain ⟨k, hk1, hk2, hk3⟩ := (ih h2).1 m hm
            exact ⟨k, hk1, by omega, by simp only [hlen]; omega⟩
        · refine forall_mem_app (fun m hm => ?_) (fun m hm => ?_)
          · exact ⟨j, (validateRemote_remoteIdx h1).2 m hm, Nat.le_refl j, by omega⟩
          · obtain ⟨k, hk1, hk2, hk3⟩ := (ih h2).2 m hm
            exact ⟨k, hk1, by omega, by simp only [hlen]; omega⟩

theorem remotesLoop_filter {rs : List JValue} {r : JValue} {j n : Nat}
    {ew ew1 : List Msg × List Msg} :
    remotesLoop j rs = .ok ew → rs.get? n = some r →
    validateRemote (j + n) r = .ok ew1 →
    ew.1.filter (fun m => m.remoteIdx == some (j + n)) = ew1.1 ∧
    ew.2.filter (fun m => m.remoteIdx == some (j + n)) = ew1.2 := by
  induction rs generalizing j n ew with
  | nil => intro _ hn _; simp at hn
  | cons q rest ih =>
    intro h hn hp
    unfold remotesLoop at h
    split at h
    next => exact Except.noConfusion h
    next e1 w1 h1 =>
      split at h
      next => exact Except.noConfusion h
      next e2 w2 h2 =>
        injection h with h
        subst h
        cases n with
        | zero =>
          obtain rfl : q = r := by simpa using hn
          simp only [Nat.add_zero] at hp ⊢
          rw [h1] at hp
          injection hp with hp
          subst hp
          constructor
          · rw [List.filter_append]
            have hself : e1.filter (fun m => m.remoteIdx == some j) = e1 := by
              rw [List.filter_eq_self]
              intro m hm
              rw [(validateRemote_remoteIdx h1).1 m hm]
              simp
            have hnil : e2.filter (fun m => m.remoteIdx == some j) = [] := by
              rw [List.filter_eq_nil_iff]
              intro m hm
              obtain ⟨k, hk1, hk2, hk3⟩ := (remotesLoop_range h2).1 m hm
              rw [hk1]
              simp only [beq_iff_eq, Option.some.injEq]
              omega
            rw [hself, hnil, List.append_nil]
          · rw [List.filter_append]
            have hself : w1.filter (fun m => m.remoteIdx == some j) = w1 := by
              rw [List.filter_eq_self]
              intro m hm
              rw [(validateRemote_remoteIdx h1).2 m hm]
              simp
            have hnil : w2.filter (fun m => m.remoteIdx == some j) = [] := by
              rw [List.filter_eq_nil_iff]
              intro m hm
              obtain ⟨k, hk1, hk2, hk3⟩ := (remotesLoop_range h2).2 m hm
              rw [hk1]
              simp only [beq_iff_eq, Option.some.injEq]
              omega
            rw [hself, hnil, List.append_nil]
        | succ n2 =>
          have hn2 : rest.get? n2 = some r := by simpa using hn
          have hadd : j + 1 + n2 = j + (n2 + 1) := by omega
          have hp2 : validateRemote (j + 1 + n2) r = .ok ew1 := by rw [hadd]; exact hp
          have := ih h2 hn2 hp2
          rw [hadd] at this
          constructor
          · rw [List.filter_append]
            have hnil : e1.filter (fun m => m.remoteIdx == some (j + (n2 + 1))) = [] := by
              rw [List.filter_eq_nil_iff]
              intro m hm
              rw [(validateRemote_remoteIdx h1).1 m hm]
              simp only [beq_iff_eq, Option.some.injEq]
              omega
            rw [hnil, List.nil_append, this.1]
          · rw [List.filter_append]
            have hnil : w1.filter (fun m => m.remoteIdx == some (j + (n2 + 1))) = [] := by
              rw [List.filter_eq_nil_iff]
              intro m hm
              rw [(validateRemote_remoteIdx h1).2 m hm]
              simp only [beq_iff_eq, Option.some.injEq]
              omega
            rw [hnil, List.nil_append, this.2]

/-! ### Decomposition of a successful validation -/

theorem validatePackagesTop_pkgIdx {config : List (String × JValue)} {ew : List Msg × List Msg}
    (h : validatePackagesTop config = .ok ew) :
    (∀ m ∈ ew.1, ∃ k, m.pkgIdx = some k) ∧ (∀ m ∈ ew.2, ∃ k, m.pkgIdx = some k) := by
  unfold validatePackagesTop at h
  split at h
  next => exact Except.noConfusion h
  next pkgs hpkgs =>
    refine ⟨fun m hm => ?_, fun m hm => ?_⟩
    · obtain ⟨k, hk, _, _⟩ := (packagesLoop_range h).1 m hm
      exact ⟨k, hk⟩
    · obtain ⟨k, hk, _, _⟩ := (packagesLoop_range h).2 m hm
      exact ⟨k, hk⟩

theorem validateRemotesTop_remoteIdx {config : List (String × JValue)} {ew : List Msg × List Msg}
    (h : validateRemotesTop config = .ok ew) :
    (∀ m ∈ ew.1, ∃ k, m.remoteIdx = some k) ∧ (∀ m ∈ ew.2, ∃ k, m.remoteIdx = some k) := by
  unfold validateRemotesTop at h
  split at h
  next => exact Except.noConfusion h
  next rs hrs =>
    refine ⟨fun m hm => ?_, fun m hm => ?_⟩
    · obtain ⟨k, hk, _, _⟩ := (remotesLoop_range h).1 m hm
      exact ⟨k, hk⟩
    · obtain ⟨k, hk, _, _⟩ := (remotesLoop_range h).2 m hm
      exact ⟨k, hk⟩

theorem pkgTopIf_tag {config : List (String × JValue)} {hp : Bool} {ew : List Msg × List Msg}
    (h : (if hp then validatePackagesTop config else .ok ([], [])) = .ok ew) :
    (∀ m ∈ ew.1, m.tag = 4) ∧ (∀ m ∈ ew.2, m.tag = 4) := by
  cases hp
  · simp only [Bool.false_eq_true, if_false] at h
    injection h with h
    subst h
    exact ⟨forall_mem_nil, forall_mem_nil⟩
  · simp only [if_true] at h
    have := validatePackagesTop_pkgIdx h
    refine ⟨fun m hm => ?_, fun m hm => ?_⟩
    · obtain ⟨k, hk⟩ := this.1 m hm
      exact Msg.pkgIdx_some_tag hk
    · obtain ⟨k, hk⟩ := this.2 m hm
      exact Msg.pkgIdx_some_tag hk

theorem remoteTopIf_tag {config : List (String × JValue)} {hr : Bool} {ew : List Msg × List Msg}
    (h : (if hr then validateRemotesTop config else .ok ([], [])) = .ok ew) :
    (∀ m ∈ ew.1, m.tag = 5) ∧ (∀ m ∈ ew.2, m.tag = 5) := by
  cases hr
  · simp only [Bool.false_eq_true, if_false] at h
    injection h with h
    subst h
    exact ⟨forall_mem_nil, forall_mem_nil⟩
  · simp only [if_true] at h
    have := validateRemotesTop_remoteIdx h
    refine ⟨fun m hm => ?_, fun m hm => ?_⟩
    · obtain ⟨k, hk⟩ := this.1 m hm
      exact Msg.remoteIdx_some_tag hk
    · obtain ⟨k, hk⟩ := this.2 m hm
      exact Msg.remoteIdx_some_tag hk

theorem validate_ok_decomp {config : List (String × JValue)} {E W : List Msg}
    (h : validate_server_json config = .ok (E, W)) :
    ∃ w2 hp hr e4 w4 e5 w5,
      checkNameFormat config = .ok w2 ∧
      computeHas config "packages" = .ok hp ∧
      computeHas config "remotes" = .ok hr ∧
      (if hp then validatePackagesTop config else .ok ([], [])) = .ok (e4, w4) ∧
      (if hr then validateRemotesTop config else .ok ([], [])) = .ok (e5, w5) ∧
      E = checkRequired config ++ deploymentErrs hp hr ++
          e4 ++ e5 ++ (checkRepository config).1 ∧
      W = w2 ++ w4 ++ w5 ++ checkRecommended config ++ (checkRepository config).2 := by
  unfold validate_server_json at h
  split at h
  next => exact Except.noConfusion h
  next w2 h2 =>
    split at h
    next => exact Except.noConfusion h
    next hp h3 =>
      split at h
      next => exact Except.noConfusion h
      next hr h4 =>
        split at h
        next => exact Except.noConfusion h
        next e4 w4 h5 =>
          split at h
          next => exact Except.noConfusion h
          next e5 w5 h6 =>
            simp only [] at h
            injection h with h
            obtain ⟨hE, hW⟩ := Prod.mk.inj h
            exact ⟨w2, hp, hr, e4, w4, e5, w5, h2, h3, h4, h5, h6, hE.symm, hW.symm⟩

theorem deploymentErrs_tag {hp hr : Bool} : ∀ m ∈ deploymentErrs hp hr, m.tag = 3 := by
  unfold deploymentErrs
  exact forall_mem_ite (forall_mem_singleton2 rfl) forall_mem_nil

theorem mem_deploymentErrs {hp hr : Bool} :
    Msg.noDeployment ∈ deploymentErrs hp hr ↔ (hp = false ∧ hr = false) := by
  unfold deploymentErrs
  cases hp <;> cases hr <;> simp

/-- Rule-1 diagnostics of a successful validation are exactly those of the
required-fields loop. -/
theorem validate_ok_mem_tag1 {config : List (String × JValue)} {E W : List Msg}
    (h : validate_server_json config = .ok (E, W)) (m : Msg) (hm : m.tag = 1) :
    m ∈ E ↔ m ∈ checkRequired config := by
  obtain ⟨w2, hp, hr, e4, w4, e5, w5, h2, h3, h4, h5, h6, hE, hW⟩ := validate_ok_decomp h
  subst hE
  simp only [List.mem_append]
  constructor
  · rintro ((((h1 | hd) | h4m) | h5m) | h7)
    · exact h1
    · have := deploymentErrs_tag m hd
      omega
    · have := (pkgTopIf_tag h5).1 m h4m
      omega
    · have := (remoteTopIf_tag h6).1 m h5m
      omega
    · have := checkRepository_fst_tag config m h7
      omega
  · intro h1
    exact Or.inl (Or.inl (Or.inl (Or.inl h1)))

/-- Rule-2 warnings of a successful validation are exactly those of the
name-format check. -/
theorem validate_ok_mem_tag2 {config : List (String × JValue)} {E W w2 : List Msg}
    (h : validate_server_json config = .ok (E, W))
    (hname : checkNameFormat config = .ok w2) (m : Msg) (hm : m.tag = 2) :
    m ∈ W ↔ m ∈ w2 := by
  obtain ⟨w2', hp, hr, e4, w4, e5, w5, h2, h3, h4, h5, h6, hE, hW⟩ := validate_ok_decomp h
  rw [h2] at hname
  injection hname with hname
  subst hname
  subst hW
  simp only [List.mem_append]
  constructor
  · rintro ((((hw | h4m) | h5m) | h6m) | h7)
    · exact hw
    · have := (pkgTopIf_tag h5).2 m h4m
      omega
    · have := (remoteTopIf_tag h6).2 m h5m
      omega
    · have := checkRecommended_tag config m h6m
      omega
    · have := checkRepository_snd_tag config m h7
      omega
  · intro hw
    exact Or.inl (Or.inl (Or.inl (Or.inl hw)))

/-- The deployment-presence error appears in a successful validation exactly
when both `has_packages` and `has_remotes` are falsy. -/
theorem validate_ok_noDeployment {config : List (String × JValue)} {E W : List Msg}
    {hp hr : Bool} (h : validate_server_json config = .ok (E, W))
    (hhp : computeHas config "packages" = .ok hp)
    (hhr : computeHas config "remotes" = .ok hr) :
    Msg.noDeployment ∈ E ↔ (hp = false ∧ hr = false) := by
  obtain ⟨w2, hp', hr', e4, w4, e5, w5, h2, h3, h4, h5, h6, hE, hW⟩ := validate_ok_decomp h
  rw [h3] at hhp
  injection hhp with hhp
  subst hhp
  rw [h4] at hhr
  injection hhr with hhr
  subst hhr
  subst hE
  simp only [List.mem_append]
  constructor
  · rintro ((((h1 | hd) | h4m) | h5m) | h7)
    · have := checkRequired_tag config _ h1
      simp [Msg.tag] at this
    · exact mem_deploymentErrs.mp hd
    · have := (pkgTopIf_tag h5).1 _ h4m
      simp [Msg.tag] at this
    · have := (remoteTopIf_tag h6).1 _ h5m
      simp [Msg.tag] at this
    · have := checkRepository_fst_tag config _ h7
      simp [Msg.tag] at this
  · intro hc
    exact Or.inl (Or.inl (Or.inl (Or.inr (mem_deploymentErrs.mpr hc))))

/-- Filtering a successful validation's diagnostics by a package index gives
the package loop's diagnostics with that index. -/
theorem validate_ok_pkg_filter {config : List (String × JValue)} {E W e4 w4 : List Msg}
    {i : Nat} (h : validate_server_json config = .ok (E, W))
    (hhp : computeHas config "packages" = .ok true)
    (htop : validatePackagesTop config = .ok (e4, w4)) :
    E.filter (fun m => m.pkgIdx == some i) = e4.filter (fun m => m.pkgIdx == some i) ∧
    W.filter (fun m => m.pkgIdx == some i) = w4.filter (fun m => m.pkgIdx == some i) := by
  obtain ⟨w2, hp', hr', e4', w4', e5, w5, h2, h3, h4, h5, h6, hE, hW⟩ := validate_ok_decomp h
  rw [h3] at hhp
  injection hhp with hhp
  subst hhp
  rw [if_pos rfl] at h5
  rw [htop] at h5
  injection h5 with h5
  obtain ⟨he4, hw4⟩ := Prod.mk.inj h5
  subst he4
  subst hw4
  subst hE
  subst hW
  have t5a : ∀ m ∈ e5, m.tag = 5 := (remoteTopIf_tag h6).1
  have t5b : ∀ m ∈ w5, m.tag = 5 := (remoteTopIf_tag h6).2
  constructor
  · simp only [List.filter_append]
    rw [@filter_pkgIdx_none (checkRequired config) i (fun m hm =>
          Msg.tag_ne4_pkgIdx (by have := checkRequired_tag config m hm; omega)),
        @filter_pkgIdx_none (deploymentErrs true hr') i (fun m hm =>
          Msg.tag_ne4_pkgIdx (by have := deploymentErrs_tag m hm; omega)),
        @filter_pkgIdx_none e5 i (fun m hm =>
          Msg.tag_ne4_pkgIdx (by have := t5a m hm; omega)),
        @filter_pkgIdx_none ((checkRepository config).1) i (fun m hm =>
          Msg.tag_ne4_pkgIdx (by have := checkRepository_fst_tag config m hm; omega))]
    simp
  · simp only [List.filter_append]
    rw [@filter_pkgIdx_none w2 i (fun m hm =>
          Msg.tag_ne4_pkgIdx (by have := checkNameFormat_tag h2 m hm; omega)),
        @filter_pkgIdx_none w5 i (fun m hm =>
          Msg.tag_ne4_pkgIdx (by have := t5b m hm; omega)),
        @filter_pkgIdx_none (checkRecommended config) i (fun m hm =>
          Msg.tag_ne4_pkgIdx (by have := checkRecommended_tag config m hm; omega)),
        @filter_pkgIdx_none ((checkRepository config).2) i (fun m hm =>
          Msg.tag_ne4_pkgIdx (by have := checkRepository_snd_tag config m hm; omega))]
    simp

/-- Filtering a successful validation's diagnostics by a remote index gives
the remote loop's diagnostics with that index. -/
theorem validate_ok_remote_filter {config : List (String × JValue)} {E W e5 w5 : List Msg}
    {i : Nat} (h : validate_server_json config = .ok (E, W))
    (hhr : computeHas config "remotes" = .ok true)
    (htop : validateRemotesTop config = .ok (e5, w5)) :
    E.filter (fun m => m.remoteIdx == some i) = e5.filter (fun m => m.remoteIdx == some i) ∧
    W.filter (fun m => m.remoteIdx == some i) = w5.filter (fun m => m.remoteIdx == some i) := by
  obtain ⟨w2, hp', hr', e4, w4, e5', w5', h2, h3, h4, h5, h6, hE, hW⟩ := validate_ok_decomp h
  rw [h4] at hhr
  injection hhr with hhr
  subst hhr
  rw [if_pos rfl] at h6
  rw [htop] at h6
  injection h6 with h6
  obtain ⟨he5, hw5⟩ := Prod.mk.inj h6
  subst he5
  subst hw5
  subst hE
  subst hW
  have t4a : ∀ m ∈ e4, m.tag = 4 := (pkgTopIf_tag h5).1
  have t4b : ∀ m ∈ w4, m.tag = 4 := (pkgTopIf_tag h5).2
  constructor
  · simp only [List.filter_append]
    rw [@filter_remoteIdx_none (checkRequired config) i (fun m hm =>
          Msg.tag_ne5_remoteIdx (by have := checkRequired_tag config m hm; omega)),
        @filter_remoteIdx_none (deploymentErrs hp' true) i (fun m hm =>
          Msg.tag_ne5_remoteIdx (by have := deploymentErrs_tag m hm; omega)),
        @filter_remoteIdx_none e4 i (fun m hm =>
          Msg.tag_ne5_remoteIdx (by have := t4a m hm; omega)),
        @filter_remoteIdx_none ((checkRepository config).1) i (fun m hm =>
          Msg.tag_ne5_remoteIdx (by have := checkRepository_fst_tag config m hm; omega))]
    simp
  · simp only [List.filter_append]
    rw [@filter_remoteIdx_none w2 i (fun m hm =>
          Msg.tag_ne5_remoteIdx (by have := checkNameFormat_tag h2 m hm; omega)),
        @filter_remoteIdx_none w4 i (fun m hm =>
          Msg.tag_ne5_remoteIdx (by have := t4b m hm; omega)),
        @filter_remoteIdx_none (checkRecommended config) i (fun m hm =>
          Msg.tag_ne5_remoteIdx (by have := checkRecommended_tag config m hm; omega)),
        @filter_remoteIdx_none ((checkRepository config).2) i (fun m hm =>
          Msg.tag_ne5_remoteIdx (by have := checkRepository_snd_tag config m hm; omega))]
    simp

/-! ### Evaluation lemmas for `computeHas` -/

theorem computeHas_of_absent {config : List (String × JValue)} {key : String}
    (h : jLookup config key = none) : computeHas config key = .ok false := by
  simp [computeHas, jGet, jGetD, h, truthy]

theorem computeHas_of_falsy {config : List (String × JValue)} {key : String} {v : JValue}
    (h : jLookup config key = some v) (hv : truthy v = false) :
    computeHas config key = .ok false := by
  simp [computeHas, jGet, jGetD, h, hv]

theorem computeHas_of_cons {config : List (String × JValue)} {key : String}
    {x : JValue} {xs : List JValue} (h : jLookup config key = some (.arr (x :: xs))) :
    computeHas config key = .ok true := by
  simp [computeHas, jGet, jGetD, h, truthy, pyLen]

/-! ### Claim C1 -/

/-- C1: for every mapping document and each required field among `name`,
`version`, `description`: an absent key yields the "Missing required field"
error; a present-but-falsy value yields the "cannot be empty" error instead;
and the two errors never both appear for the same field in one validation
(stated for validations that return normally). -/
theorem C1_required_field_errors (config : List (String × JValue)) (field : String)
    (E W : List Msg) (h : validate_server_json config = .ok (E, W))
    (hf : field ∈ REQUIRED_FIELDS) :
    (jMemKey config field = false →
      Msg.missingRequired field ∈ E ∧ Msg.emptyField field ∉ E) ∧
    (jMemKey config field = true → truthy (jGetD config field .null) = false →
      Msg.emptyField field ∈ E ∧ Msg.missingRequired field ∉ E) ∧
    ¬(Msg.missingRequired field ∈ E ∧ Msg.emptyField field ∈ E) := by
  have hA := validate_ok_mem_tag1 h (Msg.missingRequired field) rfl
  have hB := validate_ok_mem_tag1 h (Msg.emptyField field) rfl
  have hC := mem_checkRequired config field hf
  refine ⟨fun habs => ⟨hA.mpr (hC.1.mpr habs), fun hcontra => ?_⟩,
          fun hpres hfal => ⟨hB.mpr (hC.2.mpr ⟨hpres, hfal⟩), fun hcontra => ?_⟩,
          fun hboth => ?_⟩
  · have := (hC.2.mp (hB.mp hcontra)).1
    rw [habs] at this
    exact Bool.false_ne_true this
  · have := hC.1.mp (hA.mp hcontra)
    rw [hpres] at this
    simp at this
  · have d1 := hC.1.mp (hA.mp hboth.1)
    have d2 := (hC.2.mp (hB.mp hboth.2)).1
    rw [d1] at d2
    exact Bool.false_ne_true d2

def cfgC1 : List (String × JValue) := [("version", JValue.str "1.0")]

def errsC1 : List Msg :=
  [.missingRequired "name", .missingRequired "description", .noDeployment]

def warnsC1 : List Msg :=
  [.recommendedMissing "license", .recommendedMissing "homepage",
   .recommendedMissing "repository"]

theorem C1_witness :
    Msg.missingRequired "name" ∈ errsC1 ∧ Msg.emptyField "name" ∉ errsC1 :=
  (C1_required_field_errors cfgC1 "name" errsC1 warnsC1 rfl (by decide)).1 rfl

/-! ### Claim C3 -/

/-- C3: when `packages` is absent or an empty sequence and `remotes` is
absent or an empty sequence, the error list contains the deployment-presence
error, regardless of any other fields; when either is a present non-empty
sequence, that error is absent (stated for validations that return
normally). -/
theorem C3_deployment_presence (config : List (String × JValue)) (E W : List Msg)
    (h : validate_server_json config = .ok (E, W)) :
    ((jLookup config "packages" = none ∨ jLookup config "packages" = some (JValue.arr [])) →
     (jLookup config "remotes" = none ∨ jLookup config "remotes" = some (JValue.arr [])) →
     Msg.noDeployment ∈ E) ∧
    (∀ x xs, jLookup config "packages" = some (JValue.arr (x :: xs)) →
      Msg.noDeployment ∉ E) ∧
    (∀ x xs, jLookup config "remotes" = some (JValue.arr (x :: xs)) →
      Msg.noDeployment ∉ E) := by
  obtain ⟨w2, hp, hr, e4, w4, e5, w5, h2, h3, h4, h5, h6, hE, hW⟩ := validate_ok_decomp h
  have hiff := validate_ok_noDeployment h h3 h4
  refine ⟨fun hpk hrm => ?_, fun x xs hpk => ?_, fun x xs hrm => ?_⟩
  · have hpf : computeHas config "packages" = .ok false := by
      rcases hpk with hn | he
      · exact computeHas_of_absent hn
      · exact computeHas_of_falsy he rfl
    have hrf : computeHas config "remotes" = .ok false := by
      rcases hrm with hn | he
      · exact computeHas_of_absent hn
      · exact computeHas_of_falsy he rfl
    rw [h3] at hpf
    injection hpf with hpf
    rw [h4] at hrf
    injection hrf with hrf
    exact hiff.mpr ⟨hpf, hrf⟩
  · intro hmem
    have hpt : computeHas config "packages" = .ok true := computeHas_of_cons hpk
    rw [h3] at hpt
    injection hpt with hpt
    have := (hiff.mp hmem).1
    rw [hpt] at this
    simp at this
  · intro hmem
    have hrt : computeHas config "remotes" = .ok true := computeHas_of_cons hrm
    rw [h4] at hrt
    injection hrt with hrt
    have := (hiff.mp hmem).2
    rw [hrt] at this
    simp at this

def cfgC3 : List (String × JValue) :=
  [("name", JValue.str "io.github.acme/tool"), ("version", JValue.str "1.0.0"),
   ("description", JValue.str "A tool"), ("packages", JValue.arr [])]

def errsC3 : List Msg := [.noDeployment]

theorem C3_witness : Msg.noDeployment ∈ errsC3 :=
  (C3_deployment_presence cfgC3 errsC3 warnsC1 rfl).1 (Or.inr rfl) (Or.inl rfl)

/-! ### Claim C5 -/

theorem checkNameFormat_of_str {config : List (String × JValue)} {nm : String}
    (h : jLookup config "name" = some (.str nm)) :
    checkNameFormat config = .ok
      ((if !pyStartsWith nm "io.github." && !pyStartsWith nm "com." then
          [Msg.nameNamespace nm] else []) ++
       (if !pyStrContains nm "/" then [Msg.nameSlash nm] else [])) := by
  have hm : jMemKey config "name" = true := jLookup_some_mem h
  have hv : jGetD config "name" .null = .str nm := jGetD_of_lookup h
  simp [checkNameFormat, hm, hv]

/-- C5: a `name` of "io.github.acme/tool" triggers zero name-format warnings,
"acme-tool" triggers both the namespace warning and the slash warning, and
"com.acme/tool" triggers neither (stated for validations that return
normally). -/
theorem C5_name_format_scenarios (config : List (String × JValue)) (E W : List Msg)
    (h : validate_server_json config = .ok (E, W)) :
    ((jLookup config "name" = some (JValue.str "io.github.acme/tool")) →
      ∀ s, Msg.nameNamespace s ∉ W ∧ Msg.nameSlash s ∉ W) ∧
    ((jLookup config "name" = some (JValue.str "acme-tool")) →
      Msg.nameNamespace "acme-tool" ∈ W ∧ Msg.nameSlash "acme-tool" ∈ W) ∧
    ((jLookup config "name" = some (JValue.str "com.acme/tool")) →
      ∀ s, Msg.nameNamespace s ∉ W ∧ Msg.nameSlash s ∉ W) := by
  refine ⟨fun hname s => ?_, fun hname => ?_, fun hname s => ?_⟩
  · have hw2 : checkNameFormat config = .ok [] := by
      rw [checkNameFormat_of_str hname]
      rfl
    constructor
    · intro hmem
      have := (validate_ok_mem_tag2 h hw2 (Msg.nameNamespace s) rfl).mp hmem
      simp at this
    · intro hmem
      have := (validate_ok_mem_tag2 h hw2 (Msg.nameSlash s) rfl).mp hmem
      simp at this
  · have hw2 : checkNameFormat config =
        .ok [Msg.nameNamespace "acme-tool", Msg.nameSlash "acme-tool"] := by
      rw [checkNameFormat_of_str hname]
      rfl
    constructor
    · exact (validate_ok_mem_tag2 h hw2 (Msg.nameNamespace "acme-tool") rfl).mpr (by simp)
    · exact (validate_ok_mem_tag2 h hw2 (Msg.nameSlash "acme-tool") rfl).mpr (by simp)
  · have hw2 : checkNameFormat config = .ok [] := by
      rw [checkNameFormat_of_str hname]
      rfl
    constructor
    · intro hmem
      have := (validate_ok_mem_tag2 h hw2 (Msg.nameNamespace s) rfl).mp hmem
      simp at this
    · intro hmem
      have := (validate_ok_mem_tag2 h hw2 (Msg.nameSlash s) rfl).mp hmem
      simp at this

def cfgC5 : List (String × JValue) :=
  [("name", JValue.str "acme-tool"), ("version", JValue.str "1.0.0"),
   ("description", JValue.str "A tool"),
   ("remotes", JValue.arr [JValue.obj
     [("endpoint", JValue.str "https://x"), ("transport", JValue.str "sse")]])]

def warnsC5 : List Msg :=
  [.nameNamespace "acme-tool", .nameSlash "acme-tool",
   .recommendedMissing "license", .recommendedMissing "homepage",
   .recommendedMissing "repository"]

theorem C5_witness :
    Msg.nameNamespace "acme-tool" ∈ warnsC5 ∧ Msg.nameSlash "acme-tool" ∈ warnsC5 :=
  (C5_name_format_scenarios cfgC5 [] warnsC5 rfl).2.1 rfl

/-! ### Claim C4 -/

theorem validatePackage_mcpb_case {i : Nat} {es : List (String × JValue)}
    (htype : jLookup es "type" = some (.str "mcpb"))
    (huri : jMemKey es "uri" = true)
    (hsha : jMemKey es "sha256" = false)
    (hplat : jLookup es "platforms" = some (.arr [])) :
    validatePackage i (.obj es) =
      .ok ([.mcpbMissingSha256 i, .mcpbMissingPlatforms i], []) := by
  have ht : jGet es "type" = .str "mcpb" := by simp [jGet, jGetD, htype]
  have hpm : jMemKey es "platforms" = true := jLookup_some_mem hplat
  have hpv : jGetD es "platforms" .null = .arr [] := jGetD_of_lookup hplat
  simp [validatePackage, ht, huri, hsha, hpm, hpv, truthy, pkgTypeKnown, jEqStr]

/-- C4: a package entry of type "mcpb" with `uri` present, `sha256` absent
and an empty `platforms` sequence contributes exactly the missing-`sha256`
and missing/empty-`platforms` errors for its index, and no platform-level
errors (stated for validations that return normally). -/
theorem C4_mcpb_two_errors (config : List (String × JValue)) (E W : List Msg)
    (pkgs : List JValue) (i : Nat) (es : List (String × JValue))
    (h : validate_server_json config = .ok (E, W))
    (hpk : jLookup config "packages" = some (JValue.arr pkgs))
    (hi : pkgs.get? i = some (JValue.obj es))
    (htype : jLookup es "type" = some (JValue.str "mcpb"))
    (huri : jMemKey es "uri" = true)
    (hsha : jMemKey es "sha256" = false)
    (hplat : jLookup es "platforms" = some (JValue.arr [])) :
    E.filter (fun m => m.pkgIdx == some i) =
      [Msg.mcpbMissingSha256 i, Msg.mcpbMissingPlatforms i] ∧
    (∀ p f, Msg.platformMissing i p f ∉ E) := by
  cases pkgs with
  | nil => simp at hi
  | cons p0 rest =>
    obtain ⟨w2, hp, hr, e4, w4, e5, w5, h2, h3, h4, h5, h6, hE, hW⟩ := validate_ok_decomp h
    have hhp : computeHas config "packages" = .ok true := computeHas_of_cons hpk
    have hct := hhp
    rw [h3] at hct
    injection hct with hct
    subst hct
    rw [if_pos rfl] at h5
    have hjget : jGet config "packages" = .arr (p0 :: rest) := by simp [jGet, jGetD, hpk]
    have htop : packagesLoop 0 (p0 :: rest) = .ok (e4, w4) := by
      have h5' := h5
      unfold validatePackagesTop at h5'
      rw [hjget] at h5'
      simpa [pyIterate] using h5'
    have hpkg : validatePackage (0 + i) (JValue.obj es) =
        .ok ([.mcpbMissingSha256 i, .mcpbMissingPlatforms i], []) := by
      rw [Nat.zero_add]
      exact validatePackage_mcpb_case htype huri hsha hplat
    have hfilt := packagesLoop_filter htop hi hpkg
    have hEW := @validate_ok_pkg_filter config E W e4 w4 i h hhp h5
    have hEfilter : E.filter (fun m => m.pkgIdx == some i) =
        [Msg.mcpbMissingSha256 i, Msg.mcpbMissingPlatforms i] := by
      have := hfilt.1
      rw [Nat.zero_add] at this
      rw [hEW.1]
      exact this
    refine ⟨hEfilter, fun p f hmem => ?_⟩
    have hin : Msg.platformMissing i p f ∈ E.filter (fun m => m.pkgIdx == some i) :=
      List.mem_filter.mpr ⟨hmem, by simp [Msg.pkgIdx]⟩
    rw [hEfilter] at hin
    simp at hin

def cfgC4 : List (String × JValue) :=
  [("name", JValue.str "io.github.acme/tool"), ("version", JValue.str "1.0.0"),
   ("description", JValue.str "A tool"),
   ("packages", JValue.arr [JValue.obj
     [("type", JValue.str "mcpb"), ("uri", JValue.str "https://x/y.mcpb"),
      ("platforms", JValue.arr [])]])]

def errsC4 : List Msg := [.mcpbMissingSha256 0, .mcpbMissingPlatforms 0]

theorem C4_witness :
    errsC4.filter (fun m => m.pkgIdx == some 0) =
      [Msg.mcpbMissingSha256 0, Msg.mcpbMissingPlatforms 0] :=
  (C4_mcpb_two_errors cfgC4 errsC4 warnsC1
    [JValue.obj [("type", JValue.str "mcpb"), ("uri", JValue.str "https://x/y.mcpb"),
      ("platforms", JValue.arr [])]] 0
    [("type", JValue.str "mcpb"), ("uri", JValue.str "https://x/y.mcpb"),
      ("platforms", JValue.arr [])]
    rfl rfl rfl rfl rfl rfl rfl).1

/-! ### Claim C6 -/

theorem validateRemote_graphql {i : Nat} {es : List (String × JValue)}
    (hep : jMemKey es "endpoint" = true)
    (htr : jLookup es "transport" = some (.str "graphql")) :
    validateRemote i (.obj es) = .ok ([], [.unknownTransport i "graphql"]) := by
  have hm : jMemKey es "transport" = true := jLookup_some_mem htr
  have hv : jGetD es "transport" .null = .str "graphql" := jGetD_of_lookup htr
  simp [validateRemote, pyContains, hep, hm, pySubscript, hv, transportKnown, jEqStr,
    pyStr]

/-- C6: a remote entry with an `endpoint` key and `transport` equal to
"graphql" contributes exactly one warning (the unknown-transport warning
naming "graphql") and no errors for its index (stated for validations that
return normally). -/
theorem C6_unknown_transport_warning (config : List (String × JValue)) (E W : List Msg)
    (rs : List JValue) (i : Nat) (es : List (String × JValue))
    (h : validate_server_json config = .ok (E, W))
    (hrm : jLookup config "remotes" = some (JValue.arr rs))
    (hi : rs.get? i = some (JValue.obj es))
    (hep : jMemKey es "endpoint" = true)
    (htr : jLookup es "transport" = some (JValue.str "graphql")) :
    W.filter (fun m => m.remoteIdx == some i) = [Msg.unknownTransport i "graphql"] ∧
    E.filter (fun m => m.remoteIdx == some i) = [] := by
  cases rs with
  | nil => simp at hi
  | cons r0 rest =>
    obtain ⟨w2, hp, hr, e4, w4, e5, w5, h2, h3, h4, h5, h6, hE, hW⟩ := validate_ok_decomp h
    have hhr : computeHas config "remotes" = .ok true := computeHas_of_cons hrm
    have hct := hhr
    rw [h4] at hct
    injection hct with hct
    subst hct
    rw [if_pos rfl] at h6
    have hjget : jGet config "remotes" = .arr (r0 :: rest) := by simp [jGet, jGetD, hrm]
    have htop : remotesLoop 0 (r0 :: rest) = .ok (e5, w5) := by
      have h6' := h6
      unfold validateRemotesTop at h6'
      rw [hjget] at h6'
      simpa [pyIterate] using h6'
    have hrem : validateRemote (0 + i) (JValue.obj es) =
        .ok ([], [.unknownTransport i "graphql"]) := by
      rw [Nat.zero_add]
      exact validateRemote_graphql hep htr
    have hfilt := remotesLoop_filter htop hi hrem
    have hEW := @validate_ok_remote_filter config E W e5 w5 i h hhr h6
    constructor
    · have := hfilt.2
      rw [Nat.zero_add] at this
      rw [hEW.2]
      exact this
    · have := hfilt.1
      rw [Nat.zero_add] at this
      rw [hEW.1]
      exact this

def cfgC6 : List (String × JValue) :=
  [("name", JValue.str "io.github.acme/tool"), ("version", JValue.str "1.0.0"),
   ("description", JValue.str "A tool"),
   ("remotes", JValue.arr [JValue.obj
     [("endpoint", JValue.str "https://x/mcp"), ("transport", JValue.str "graphql")]])]

def warnsC6 : List Msg :=
  [.unknownTransport 0 "graphql", .recommendedMissing "license",
   .recommendedMissing "homepage", .recommendedMissing "repository"]

theorem C6_witness :
    warnsC6.filter (fun m => m.remoteIdx == some 0) = [Msg.unknownTransport 0 "graphql"] :=
  (C6_unknown_transport_warning cfgC6 [] warnsC6
    [JValue.obj [("endpoint", JValue.str "https://x/mcp"),
      ("transport", JValue.str "graphql")]] 0
    [("endpoint", JValue.str "https://x/mcp"), ("transport", JValue.str "graphql")]
    rfl rfl rfl rfl rfl).1

/-! ### Claim C10 -/

theorem falsy_transportKnown {tv : JValue} (h : truthy tv = false) :
    transportKnown tv = false := by
  cases tv <;> simp_all [truthy, transportKnown, jEqStr]

theorem falsy_not_mcpb {tv : JValue} (h : truthy tv = false) :
    jEqStr tv "mcpb" = false := by
  cases tv <;> simp_all [truthy, jEqStr]

/-- C10: a remote whose `transport` key is present with a falsy value gets
the unknown-transport warning and never the missing-`transport` error
(presence is tested by key membership), whereas a package whose `type` key
is present with a falsy value gets the missing-`type` error and never the
unknown-type warning (presence is tested by truthiness). -/
theorem C10_presence_vs_truthiness (i : Nat) :
    (∀ es tv ew, validateRemote i (JValue.obj es) = Except.ok ew →
      jLookup es "transport" = some tv → truthy tv = false →
      Msg.unknownTransport i (pyStr tv) ∈ ew.2 ∧ Msg.remoteMissingTransport i ∉ ew.1) ∧
    (∀ es tv ew, validatePackage i (JValue.obj es) = Except.ok ew →
      jLookup es "type" = some tv → truthy tv = false →
      Msg.pkgMissingType i ∈ ew.1 ∧ ∀ s, Msg.unknownPkgType i s ∉ ew.2) := by
  constructor
  · intro es tv ew hok htv hfal
    have hm : jMemKey es "transport" = true := jLookup_some_mem htv
    have hv : jGetD es "transport" .null = tv := jGetD_of_lookup htv
    cases hep : jMemKey es "endpoint" with
    | true =>
      have hval : validateRemote i (JValue.obj es) =
          .ok ([], [Msg.unknownTransport i (pyStr tv)]) := by
        simp [validateRemote, pyContains, hep, hm, pySubscript, hv,
          falsy_transportKnown hfal]
      rw [hval] at hok
      injection hok with hok
      subst hok
      simp
    | false =>
      have hval : validateRemote i (JValue.obj es) =
          .ok ([Msg.remoteMissingEndpoint i], [Msg.unknownTransport i (pyStr tv)]) := by
        simp [validateRemote, pyContains, hep, hm, pySubscript, hv,
          falsy_transportKnown hfal]
      rw [hval] at hok
      injection hok with hok
      subst hok
      simp
  · intro es tv ew hok htv hfal
    have ht : jGet es "type" = tv := by simp [jGet, jGetD, htv]
    have hval : validatePackage i (JValue.obj es) = .ok ([Msg.pkgMissingType i], []) := by
      simp [validatePackage, ht, hfal, falsy_not_mcpb hfal]
    rw [hval] at hok
    injection hok with hok
    subst hok
    simp

theorem C10_witness :
    (Msg.unknownTransport 0 "" ∈ [Msg.unknownTransport 0 ""] ∧
      Msg.remoteMissingTransport 0 ∉ ([] : List Msg)) ∧
    (Msg.pkgMissingType 0 ∈ [Msg.pkgMissingType 0] ∧
      ∀ s, Msg.unknownPkgType 0 s ∉ ([] : List Msg)) :=
  ⟨(C10_presence_vs_truthiness 0).1
      [("endpoint", JValue.str "https://e"), ("transport", JValue.str "")]
      (JValue.str "") ([], [Msg.unknownTransport 0 ""]) rfl rfl rfl,
   (C10_presence_vs_truthiness 0).2 [("type", JValue.null)] JValue.null
      ([Msg.pkgMissingType 0], []) rfl rfl rfl⟩

/-! ### Claim C9 -/

/-- Removing a key from the document (`del config[k]`, hypothetically):
used to compare a falsy-valued key with an absent one. -/
def eraseKey (config : List (String × JValue)) (k : String) : List (String × JValue) :=
  match config with
  | [] => []
  | (k2, v) :: rest => if k2 == k then eraseKey rest k else (k2, v) :: eraseKey rest k

theorem beq_trans_ne {k k2 k3 : String} (hk : (k3 == k) = true)
    (h : (k2 == k) = false) : (k3 == k2) = false := by
  have e1 : k3 = k := beq_iff_eq.mp hk
  subst e1
  cases hx : (k3 == k2) with
  | false => rfl
  | true =>
    have e2 : k3 = k2 := beq_iff_eq.mp hx
    rw [e2] at h
    simp at h

theorem jMemKey_erase_ne {config : List (String × JValue)} {k k2 : String}
    (h : (k2 == k) = false) : jMemKey (eraseKey config k) k2 = jMemKey config k2 := by
  induction config with
  | nil => rfl
  | cons kv rest ih =>
    obtain ⟨k3, v3⟩ := kv
    simp only [eraseKey]
    cases hk : (k3 == k) with
    | true =>
      rw [if_pos rfl]
      rw [ih]
      have hne : (k3 == k2) = false := beq_trans_ne hk h
      simp [jMemKey, List.any_cons, hne]
    | false =>
      rw [if_neg (by simp)]
      simp only [jMemKey, List.any_cons] at ih ⊢
      rw [ih]

theorem jLookup_erase_ne {config : List (String × JValue)} {k k2 : String}
    (h : (k2 == k) = false) : jLookup (eraseKey config k) k2 = jLookup config k2 := by
  induction config with
  | nil => rfl
  | cons kv rest ih =>
    obtain ⟨k3, v3⟩ := kv
    simp only [eraseKey]
    cases hk : (k3 == k) with
    | true =>
      rw [if_pos rfl]
      rw [ih]
      have hne : (k3 == k2) = false := beq_trans_ne hk h
      simp only [jLookup, hne]
      rw [if_neg (by simp)]
    | false =>
      rw [if_neg (by simp)]
      simp only [jLookup] at ih ⊢
      rw [ih]

theorem jLookup_erase_self {config : List (String × JValue)} {k : String} :
    jLookup (eraseKey config k) k = none := by
  induction config with
  | nil => rfl
  | cons kv rest ih =>
    obtain ⟨k3, v3⟩ := kv
    simp only [eraseKey]
    cases hk : (k3 == k) with
    | true =>
      rw [if_pos rfl]
      exact ih
    | false =>
      rw [if_neg (by simp)]
      simp only [jLookup, hk]
      rw [if_neg (by simp)]
      exact ih

theorem checkRequired_erase {config : List (String × JValue)} {k : String}
    (h1 : ("name" == k) = false) (h2 : ("version" == k) = false)
    (h3 : ("description" == k) = false) :
    checkRequired (eraseKey config k) = checkRequired config := by
  simp only [checkRequired, REQUIRED_FIELDS, List.foldl_cons, List.foldl_nil, jGetD,
    jMemKey_erase_ne h1, jLookup_erase_ne h1, jMemKey_erase_ne h2,
    jLookup_erase_ne h2, jMemKey_erase_ne h3, jLookup_erase_ne h3]

theorem checkNameFormat_erase {config : List (String × JValue)} {k : String}
    (h1 : ("name" == k) = false) :
    checkNameFormat (eraseKey config k) = checkNameFormat config := by
  simp only [checkNameFormat, jGetD, jMemKey_erase_ne h1, jLookup_erase_ne h1]

theorem computeHas_erase {config : List (String × JValue)} {k key : String}
    (h1 : (key == k) = false) :
    computeHas (eraseKey config k) key = computeHas config key := by
  simp only [computeHas, jGet, jGetD, jLookup_erase_ne h1]

theorem validatePackagesTop_erase {config : List (String × JValue)} {k : String}
    (h1 : ("packages" == k) = false) :
    validatePackagesTop (eraseKey config k) = validatePackagesTop config := by
  simp only [validatePackagesTop, jGet, jGetD, jLookup_erase_ne h1]

theorem validateRemotesTop_erase {config : List (String × JValue)} {k : String}
    (h1 : ("remotes" == k) = false) :
    validateRemotesTop (eraseKey config k) = validateRemotesTop config := by
  simp only [validateRemotesTop, jGet, jGetD, jLookup_erase_ne h1]

theorem checkRecommended_erase {config : List (String × JValue)} {k : String}
    (h1 : ("license" == k) = false) (h2 : ("homepage" == k) = false)
    (h3 : ("repository" == k) = false) :
    checkRecommended (eraseKey config k) = checkRecommended config := by
  simp only [checkRecommended, List.foldl_cons, List.foldl_nil,
    jMemKey_erase_ne h1, jMemKey_erase_ne h2, jMemKey_erase_ne h3]

theorem checkRepository_erase {config : List (String × JValue)} {k : String}
    (h1 : ("repository" == k) = false) :
    checkRepository (eraseKey config k) = checkRepository config := by
  simp only [checkRepository, jGetD, jMemKey_erase_ne h1, jLookup_erase_ne h1]

/-- C9: a `packages` (resp. `remotes`) key bound to a falsy value makes the
validator behave exactly as if the key were absent: the whole result
coincides with the result on the document with the key removed, and the
value counts as "no packages" (resp. "no remotes") for the
deployment-presence rule. -/
theorem C9_falsy_collections (config : List (String × JValue)) (v : JValue) :
    (jLookup config "packages" = some v → truthy v = false →
      validate_server_json config = validate_server_json (eraseKey config "packages") ∧
      computeHas config "packages" = .ok false) ∧
    (jLookup config "remotes" = some v → truthy v = false →
      validate_server_json config = validate_server_json (eraseKey config "remotes") ∧
      computeHas config "remotes" = .ok false) := by
  constructor
  · intro hv hfal
    have e3 : computeHas config "packages" = .ok false := computeHas_of_falsy hv hfal
    have e3' : computeHas (eraseKey config "packages") "packages" = .ok false := by
      simp [computeHas, jGet, jGetD, jLookup_erase_self, truthy]
    refine ⟨?_, e3⟩
    unfold validate_server_json
    simp only [@checkRequired_erase config "packages" rfl rfl rfl,
      @checkNameFormat_erase config "packages" rfl, e3, e3',
      @computeHas_erase config "packages" "remotes" rfl,
      @validateRemotesTop_erase config "packages" rfl,
      @checkRecommended_erase config "packages" rfl rfl rfl,
      @checkRepository_erase config "packages" rfl]
    rfl
  · intro hv hfal
    have e3 : computeHas config "remotes" = .ok false := computeHas_of_falsy hv hfal
    have e3' : computeHas (eraseKey config "remotes") "remotes" = .ok false := by
      simp [computeHas, jGet, jGetD, jLookup_erase_self, truthy]
    refine ⟨?_, e3⟩
    unfold validate_server_json
    simp only [@checkRequired_erase config "remotes" rfl rfl rfl,
      @checkNameFormat_erase config "remotes" rfl, e3, e3',
      @computeHas_erase config "remotes" "packages" rfl,
      @validatePackagesTop_erase config "remotes" rfl,
      @checkRecommended_erase config "remotes" rfl rfl rfl,
      @checkRepository_erase config "remotes" rfl]
    rfl

def cfgC9 : List (String × JValue) :=
  [("name", JValue.str "io.github.acme/tool"), ("version", JValue.str "1.0.0"),
   ("description", JValue.str "A tool"), ("packages", JValue.null)]

theorem C9_witness :
    validate_server_json cfgC9 = validate_server_json (eraseKey cfgC9 "packages") ∧
    computeHas cfgC9 "packages" = .ok false :=
  (C9_falsy_collections cfgC9 JValue.null).1 rfl rfl

/-! ### Claim C2 -/

def cfgC2 : List (String × JValue) :=
  [("name", JValue.num 1), ("version", JValue.str "1.0.0"),
   ("description", JValue.str "ok")]

/-- C2 counterexample: a mapping document whose `name` value is the number 1
makes `validate_server_json` raise (`name.startswith` on a non-string), so
the validator does not return normally on every mapping document. -/
theorem C2_counterexample :
    validate_server_json cfgC2 =
      .error (.attributeError "value has no attribute startswith") := rfl

theorem validatePlatform_obj_ok {i pidx : Nat} {es : List (String × JValue)} :
    ∃ e, validatePlatform i pidx (JValue.obj es) = .ok e := by
  unfold validatePlatform
  simp only [pyContains]
  exact ⟨_, rfl⟩

theorem platformsLoop_ok {i : Nat} {plats : List JValue} {pidx : Nat}
    (h : plats.all (fun p => match p with | JValue.obj _ => true | _ => false) = true) :
    ∃ e, platformsLoop i pidx plats = .ok e := by
  induction plats generalizing pidx with
  | nil => exact ⟨[], rfl⟩
  | cons p rest ih =>
    rw [List.all_cons, Bool.and_eq_true] at h
    obtain ⟨hp, hrest⟩ := h
    obtain ⟨es, rfl⟩ : ∃ es, p = JValue.obj es := by
      cases p <;> simp at hp <;> exact ⟨_, rfl⟩
    obtain ⟨e1, he1⟩ := @validatePlatform_obj_ok i pidx es
    obtain ⟨e2, he2⟩ := ih hrest
    exact ⟨e1 ++ e2, by unfold platformsLoop; rw [he1, he2]⟩

theorem validatePackage_wt_ok {i : Nat} {p : JValue} (h : packageWellTyped p = true) :
    ∃ ew, validatePackage i p = .ok ew := by
  cases p <;> simp only [packageWellTyped] at h
  case obj es =>
    unfold validatePackage
    simp only []
    cases hm : jEqStr (jGet es "type") "mcpb" with
    | false =>
      rw [if_pos rfl]
      exact ⟨_, rfl⟩
    | true =>
      rw [if_neg (by simp)]
      rw [if_pos hm] at h
      cases hmem : jMemKey es "platforms" with
      | false =>
        rw [if_pos (by simp [hmem])]
        exact ⟨_, rfl⟩
      | true =>
        cases htr : truthy (jGetD es "platforms" JValue.null) with
        | false =>
          rw [if_pos (by simp [htr])]
          exact ⟨_, rfl⟩
        | true =>
          rw [if_neg (by simp [hmem, htr])]
          obtain ⟨v, hv⟩ := jMemKey_some hmem
          rw [jGetD_of_lookup hv] at htr ⊢
          unfold platformsWellTyped at h
          rw [hv] at h
          simp only [] at h
          rw [if_neg (by simp [htr])] at h
          cases v with
          | arr ps =>
            simp only [pyIterate]
            obtain ⟨e, he⟩ := @platformsLoop_ok i ps 0 h
            rw [he]
            exact ⟨_, rfl⟩
          | null => simp at h
          | bool b => simp at h
          | num n => simp at h
          | str s2 => simp at h
          | obj es2 => simp at h
  all_goals simp at h

theorem packagesLoop_ok {pkgs : List JValue} {i : Nat}
    (h : pkgs.all packageWellTyped = true) : ∃ ew, packagesLoop i pkgs = .ok ew := by
  induction pkgs generalizing i with
  | nil => exact ⟨([], []), rfl⟩
  | cons p rest ih =>
    rw [List.all_cons, Bool.and_eq_true] at h
    obtain ⟨e1, he1⟩ := @validatePackage_wt_ok i p h.1
    obtain ⟨e2, he2⟩ := @ih (i + 1) h.2
    exact ⟨(e1.1 ++ e2.1, e1.2 ++ e2.2), by unfold packagesLoop; rw [he1, he2]⟩

theorem validateRemote_obj_ok {i : Nat} {es : List (String × JValue)} :
    ∃ ew, validateRemote i (JValue.obj es) = .ok ew := by
  unfold validateRemote
  simp only [pyContains, pySubscript]
  cases hT : jMemKey es "transport" with
  | false =>
    rw [if_pos rfl]
    exact ⟨_, rfl⟩
  | true =>
    rw [if_neg (by simp)]
    split
    · exact ⟨_, rfl⟩
    · exact ⟨_, rfl⟩

theorem remotesLoop_ok {rs : List JValue} {i : Nat}
    (h : rs.all remoteWellTyped = true) : ∃ ew, remotesLoop i rs = .ok ew := by
  induction rs generalizing i with
  | nil => exact ⟨([], []), rfl⟩
  | cons r rest ih =>
    rw [List.all_cons, Bool.and_eq_true] at h
    obtain ⟨es, rfl⟩ : ∃ es, r = JValue.obj es := by
      have := h.1
      cases r <;> simp [remoteWellTyped] at this <;> exact ⟨_, rfl⟩
    obtain ⟨e1, he1⟩ := @validateRemote_obj_ok i es
    obtain ⟨e2, he2⟩ := @ih (i + 1) h.2
    exact ⟨(e1.1 ++ e2.1, e1.2 ++ e2.2), by unfold remotesLoop; rw [he1, he2]⟩

theorem checkNameFormat_ok_of_wt {config : List (String × JValue)}
    (hn : (match jLookup config "name" with
           | none => true
           | some (.str _) => true
           | some _ => false) = true) :
    ∃ w2, checkNameFormat config = .ok w2 := by
  unfold checkNameFormat
  cases hm : jMemKey config "name" with
  | false =>
    rw [if_pos rfl]
    exact ⟨[], rfl⟩
  | true =>
    rw [if_neg (by simp)]
    obtain ⟨v, hv⟩ := jMemKey_some hm
    rw [jGetD_of_lookup hv]
    rw [hv] at hn
    cases v with
    | str s => exact ⟨_, rfl⟩
    | null => simp at hn
    | bool b => simp at hn
    | num n => simp at hn
    | arr xs => simp at hn
    | obj es => simp at hn

theorem computeHas_ok_of_seqWT {config : List (String × JValue)} {key : String}
    {elemOk : JValue → Bool} (h : seqFieldWellTyped config key elemOk = true) :
    ∃ b, computeHas config key = .ok b ∧
      (b = true → ∃ xs, jGet config key = .arr xs ∧ xs.all elemOk = true) := by
  unfold seqFieldWellTyped at h
  cases hv : jLookup config key with
  | none =>
    refine ⟨false, ?_, by simp⟩
    exact computeHas_of_absent hv
  | some v =>
    rw [hv] at h
    simp only [] at h
    cases ht : truthy v with
    | false =>
      refine ⟨false, computeHas_of_falsy hv ht, by simp⟩
    | true =>
      rw [if_neg (by simp [ht])] at h
      cases v with
      | arr xs =>
        have hg : jGet config key = .arr xs := by simp [jGet, jGetD, hv]
        cases xs with
        | nil => simp [truthy] at ht
        | cons x rest =>
          exact ⟨true, computeHas_of_cons hv, fun _ => ⟨x :: rest, hg, h⟩⟩
      | null => simp at h
      | bool b => simp at h
      | num n => simp at h
      | str s => simp at h
      | obj es => simp at h

/-- C2 amended: the validator returns normally (never raises) on every
well-typed mapping document: `name` (when present) a string, truthy
`packages`/`remotes` values lists of mappings, and truthy `platforms` values
of MCPB packages lists of mappings. On wrong-typed values it can raise, as
`C2_counterexample` shows. -/
theorem C2_well_typed_no_raise (config : List (String × JValue))
    (h : configWellTyped config = true) :
    ∃ r, validate_server_json config = .ok r := by
  have h' := h
  simp only [configWellTyped, Bool.and_eq_true] at h'
  obtain ⟨⟨hn, hp⟩, hr⟩ := h'
  obtain ⟨w2, hw2⟩ := checkNameFormat_ok_of_wt hn
  obtain ⟨bp, hbp, hbp'⟩ := computeHas_ok_of_seqWT hp
  obtain ⟨br, hbr, hbr'⟩ := computeHas_ok_of_seqWT hr
  have hpkgtop : ∃ ew4, (if bp then validatePackagesTop config else .ok ([], [])) = .ok ew4 := by
    cases bp with
    | false => exact ⟨([], []), rfl⟩
    | true =>
      rw [if_pos rfl]
      obtain ⟨xs, hxs, hall⟩ := hbp' rfl
      unfold validatePackagesTop
      rw [hxs]
      simp only [pyIterate]
      exact packagesLoop_ok hall
  have hremtop : ∃ ew5, (if br then validateRemotesTop config else .ok ([], [])) = .ok ew5 := by
    cases br with
    | false => exact ⟨([], []), rfl⟩
    | true =>
      rw [if_pos rfl]
      obtain ⟨xs, hxs, hall⟩ := hbr' rfl
      unfold validateRemotesTop
      rw [hxs]
      simp only [pyIterate]
      exact remotesLoop_ok hall
  obtain ⟨⟨e4, w4⟩, hew4⟩ := hpkgtop
  obtain ⟨⟨e5, w5⟩, hew5⟩ := hremtop
  unfold validate_server_json
  rw [hw2, hbp, hbr]
  simp only []
  rw [hew4, hew5]
  exact ⟨_, rfl⟩

theorem C2_witness :
    configWellTyped cfgC4 = true ∧ ∃ r, validate_server_json cfgC4 = .ok r :=
  ⟨rfl, C2_well_typed_no_raise cfgC4 rfl⟩

/-! ### Claims C7 and C8 -/

theorem mainSummary_ok {config : List (String × JValue)} {out lines : List Line}
    {code : Nat} (h : mainSummary config out = .ok (lines, code)) :
    code = 0 ∧ Line.summaryHeader ∈ lines := by
  unfold mainSummary at h
  split at h
  next => exact Except.noConfusion h
  next desc hdesc =>
    split at h
    next => exact Except.noConfusion h
    next npkgs hnp =>
      split at h
      next => exact Except.noConfusion h
      next nrem hnr =>
        split at h
        next => exact Except.noConfusion h
        next plines hpl =>
          injection h with h
          obtain ⟨hl, hc⟩ := Prod.mk.inj h
          subst hl
          subst hc
          exact ⟨rfl, by simp⟩

theorem main_ok_elim {config : List (String × JValue)} {lines : List Line} {code : Nat}
    (h : main config = .ok (lines, code)) :
    ∃ E W, validate_server_json config = .ok (E, W) ∧
      ((E = [] ∧ code = 0 ∧ Line.summaryHeader ∈ lines) ∨
       (E ≠ [] ∧ code = 1 ∧ Line.summaryHeader ∉ lines)) := by
  unfold main at h
  split at h
  next => exact Except.noConfusion h
  next E W hval =>
    refine ⟨E, W, hval, ?_⟩
    simp only [] at h
    split at h
    next hcond =>
      have hs := mainSummary_ok h
      rw [Bool.and_eq_true] at hcond
      exact Or.inl ⟨List.isEmpty_iff.mp hcond.1, hs.1, hs.2⟩
    next hcond =>
      split at h
      next hcond2 =>
        have hs := mainSummary_ok h
        exact Or.inl ⟨List.isEmpty_iff.mp hcond2, hs.1, hs.2⟩
      next hcond2 =>
        injection h with h
        obtain ⟨hl, hc⟩ := Prod.mk.inj h
        subst hl
        subst hc
        refine Or.inr ⟨?_, rfl, ?_⟩
        · intro hE
          exact hcond2 (by simp [hE])
        · intro hmem
          rcases List.mem_append.mp hmem with hm | hm
          · rcases List.mem_append.mp hm with hm2 | hm2
            · rcases List.mem_append.mp hm2 with hm3 | hm3
              · simp at hm3
              · simp at hm3
            · revert hm2
              split <;> intro hm2 <;> simp at hm2
          · simp at hm

/-- C7 counterexample: for the empty document (successfully loaded, errors
present) the reporter exits with status 1 before printing the
configuration-summary block, contradicting "prints the summary
unconditionally". -/
theorem C7_counterexample :
    validate_server_json ([] : List (String × JValue)) =
      .ok ([.missingRequired "name", .missingRequired "version",
            .missingRequired "description", .noDeployment],
           [.recommendedMissing "license", .recommendedMissing "homepage",
            .recommendedMissing "repository"]) ∧
    printsSummary [] = false ∧ processExitCode [] = 1 :=
  ⟨rfl, rfl, rfl⟩

/-- C7 amended: for every successfully loaded document on which `main`
completes without an uncaught exception, the configuration-summary block is
printed iff the validator's error list is empty; with a non-empty error list
the process exits (status 1) before the summary. -/
theorem C7_summary_iff_no_errors (config : List (String × JValue)) (lines : List Line)
    (code : Nat) (E W : List Msg) (h : main config = .ok (lines, code))
    (hval : validate_server_json config = .ok (E, W)) :
    Line.summaryHeader ∈ lines ↔ E = [] := by
  obtain ⟨E', W', hval', hcases⟩ := main_ok_elim h
  rw [hval] at hval'
  injection hval' with hval'
  obtain ⟨hE, hW⟩ := Prod.mk.inj hval'
  subst hE
  subst hW
  rcases hcases with ⟨hE, hc, hmem⟩ | ⟨hE, hc, hmem⟩
  · exact ⟨fun _ => hE, fun _ => hmem⟩
  · exact ⟨fun hm => absurd hm hmem, fun he => absurd he hE⟩

def cfgC8 : List (String × JValue) :=
  [("name", JValue.str "io.github.acme/tool"), ("version", JValue.str "1.0.0"),
   ("description", JValue.str "A tool"), ("packages", JValue.num 0),
   ("remotes", JValue.arr [JValue.obj
     [("endpoint", JValue.str "https://x"), ("transport", JValue.str "sse")]])]

/-- C8 counterexample: a successfully loaded document with an empty error
list on which the reporter's summary raises (`len` of the falsy non-sequence
`packages` value `0`) exits with status 1, refuting "exit status 0 iff the
error list is empty". -/
theorem C8_counterexample :
    validate_server_json cfgC8 =
      .ok ([], [.recommendedMissing "license", .recommendedMissing "homepage",
                .recommendedMissing "repository"]) ∧
    processExitCode cfgC8 = 1 :=
  ⟨rfl, rfl⟩

/-- C8 amended: for every successfully loaded document on which `main`
completes without an uncaught exception, the exit status is 0 iff the
validator's error list is empty (warnings alone never cause a non-zero
exit); a reporter exception yields exit status 1 even with no errors, as
`C8_counterexample` shows. -/
theorem C8_exit_iff_no_errors (config : List (String × JValue)) (lines : List Line)
    (code : Nat) (E W : List Msg) (h : main config = .ok (lines, code))
    (hval : validate_server_json config = .ok (E, W)) :
    code = 0 ↔ E = [] := by
  obtain ⟨E', W', hval', hcases⟩ := main_ok_elim h
  rw [hval] at hval'
  injection hval' with hval'
  obtain ⟨hE, hW⟩ := Prod.mk.inj hval'
  subst hE
  subst hW
  rcases hcases with ⟨hE, hc, hmem⟩ | ⟨hE, hc, hmem⟩
  · exact ⟨fun _ => hE, fun _ => hc⟩
  · subst hc
    exact ⟨fun hcontra => by omega, fun he => absurd he hE⟩

def linesC78 : List Line :=
  [.banner, .warningsHeader,
   .warningItem (.nameNamespace "acme-tool"), .warningItem (.nameSlash "acme-tool"),
   .warningItem (.recommendedMissing "license"),
   .warningItem (.recommendedMissing "homepage"),
   .warningItem (.recommendedMissing "repository"),
   .blank, .validWithWarnings, .summaryHeader,
   .summaryName "acme-tool", .summaryVersion "1.0.0",
   .summaryDescription "A tool", .summaryLicense "Not specified",
   .summaryHomepage "Not specified", .summaryPackages 0, .summaryRemotes 1]

theorem C7_witness : Line.summaryHeader ∈ linesC78 ↔ ([] : List Msg) = [] :=
  C7_summary_iff_no_errors cfgC5 linesC78 0 [] warnsC5 rfl rfl

theorem C8_witness : (0 : Nat) = 0 ↔ ([] : List Msg) = [] :=
  C8_exit_iff_no_errors cfgC5 linesC78 0 [] warnsC5 rfl rfl

end ServerConfig
